import Mathlib

/-!
Verification development for the `piboufilings` SEC-filings pipeline.

Shallow embedding of the repository's core operations:
* `piboufilings/core/rate_limiter.py` — token-bucket rate limiter,
* `piboufilings/parsers/base_parser.py` and `piboufilings/core/parser.py` —
  labeled-line regex extraction of header and accession metadata,
* `piboufilings/core/parser.py` / `piboufilings/parsers/form_13f_parser.py` —
  XML-region extraction and holdings-table parsing,
* `piboufilings/core/data_organizer.py` — persistence of extracted records,
* `piboufilings/core/downloader.py` — fixed-width index-file parsing.

Python floats for token counts and times are modelled as rationals
(exact arithmetic); Python strings as Lean `String`/`List Char`.
-/

/- ===================================================================
   Section 1: rate limiter (core/rate_limiter.py)
   =================================================================== -/

/-- State of `TokenBucketRateLimiter`: `rate`, `capacity`, `tokens`.
`last_refill_time` is not stored; instead every modelled call takes the
elapsed time since the previous refill as an explicit nonnegative input,
which is what `time.time()` differences provide. -/
structure Bucket where
  rate : ℚ
  capacity : ℚ
  tokens : ℚ
deriving Repr, DecidableEq

/-- `TokenBucketRateLimiter.__init__`: `capacity` defaults to `rate`,
`tokens` starts at `capacity`. -/
def mkBucket (rate : ℚ) (capacity : Option ℚ) : Bucket :=
  { rate := rate, capacity := capacity.getD rate, tokens := capacity.getD rate }

/-- `TokenBucketRateLimiter._refill` with `elapsed = now - last_refill_time`:
add `elapsed * rate` tokens, capped at `capacity`. -/
def refill (b : Bucket) (elapsed : ℚ) : Bucket :=
  { b with tokens := min b.capacity (b.tokens + elapsed * b.rate) }

/-- One `acquire(tokens, block, timeout)` call together with the wall-clock
observations the source makes: `e1` = elapsed since last refill at the
initial `_refill`; `sChk` = `time.time() - start_time` at the
`>= timeout` check (line 78); `s2` = the same difference at the
`remaining_timeout` computation (line 85); `e2` = elapsed since the first
refill when `_refill` runs again after `time.sleep` (line 93). -/
structure AcqCall where
  n : ℚ
  block : Bool
  timeout : Option ℚ
  e1 : ℚ
  sChk : ℚ
  s2 : ℚ
  e2 : ℚ
deriving Repr

/-- Lines 90-101 of the source: `time.sleep(wait_time)` (elapsed `e2` when
the post-wait `_refill` runs), then re-check and deduct, else return the
contract-violation `False`. -/
def acquireAfterWait (b1 : Bucket) (n e2 : ℚ) : Bool × Bucket :=
  let b2 := refill b1 e2
  if n ≤ b2.tokens then (true, { b2 with tokens := b2.tokens - n })
  else (false, b2)

/-- `TokenBucketRateLimiter.acquire`: returns the boolean result and the
bucket state after the call.  Mirrors the source line by line; the
`time.sleep` itself has no effect on the bucket beyond the elapsed time
`e2` consumed by the post-wait `_refill`. -/
def acquire (b : Bucket) (c : AcqCall) : Bool × Bucket :=
  let b1 := refill b c.e1
  if c.n ≤ b1.tokens then
    (true, { b1 with tokens := b1.tokens - c.n })
  else if !c.block then
    (false, b1)
  else
    let wait := (c.n - b1.tokens) / b1.rate
    -- line 74: `if timeout is not None and wait_time > timeout: return False`
    if c.timeout.elim false (fun t => decide (t < wait)) then
      (false, b1)
    -- line 78: `if timeout is not None and time.time() - start_time >= timeout`
    else if c.timeout.elim false (fun t => decide (t ≤ c.sChk)) then
      (false, b1)
    else if 0 < wait then
      -- lines 83-88: cap the sleep at the remaining timeout budget and
      -- fail if none is left; then sleep and re-check
      match c.timeout with
      | some t =>
          if min wait (t - c.s2) ≤ 0 then (false, b1)
          else acquireAfterWait b1 c.n c.e2
      | none => acquireAfterWait b1 c.n c.e2
    else
      -- line 104: unconditional deduction (unreachable when rate > 0)
      (true, { b1 with tokens := b1.tokens - c.n })

/-- `GlobalRateLimiter.acquire`: delegates to the shared bucket with cost 1. -/
def global_acquire (b : Bucket) (block : Bool) (timeout : Option ℚ)
    (e1 sChk s2 e2 : ℚ) : Bool × Bucket :=
  acquire b { n := 1, block := block, timeout := timeout,
              e1 := e1, sChk := sChk, s2 := s2, e2 := e2 }

/-- Run a sequence of `acquire` calls, returning the final bucket. -/
def runOps (b : Bucket) : List AcqCall → Bucket
  | [] => b
  | c :: cs => runOps (acquire b c).2 cs

/-- The data-model invariant on a `RateBudget`. -/
def BucketInv (b : Bucket) : Prop := 0 ≤ b.tokens ∧ b.tokens ≤ b.capacity

instance (b : Bucket) : Decidable (BucketInv b) := by
  unfold BucketInv; infer_instance

/-- Well-formed call: nonnegative cost and nonnegative elapsed times. -/
def CallOk (c : AcqCall) : Prop := 0 ≤ c.n ∧ 0 ≤ c.e1 ∧ 0 ≤ c.e2

instance (c : AcqCall) : Decidable (CallOk c) := by
  unfold CallOk; infer_instance

lemma refill_inv {b : Bucket} {e : ℚ} (hb : BucketInv b) (he : 0 ≤ e)
    (hr : 0 ≤ b.rate) : BucketInv (refill b e) := by
  obtain ⟨h0, hc⟩ := hb
  refine ⟨?_, ?_⟩
  · have : 0 ≤ b.tokens + e * b.rate := by positivity
    simp only [refill, le_min_iff]
    exact ⟨le_trans h0 hc, this⟩
  · simp [refill]

lemma acquireAfterWait_inv {b1 : Bucket} {n e2 : ℚ} (hb1 : BucketInv b1)
    (hn : 0 ≤ n) (he2 : 0 ≤ e2) (hr : 0 ≤ b1.rate) :
    BucketInv (acquireAfterWait b1 n e2).2 := by
  obtain ⟨h20, h2c⟩ := refill_inv hb1 he2 hr
  unfold acquireAfterWait
  dsimp only
  split
  · rename_i hge2
    exact ⟨sub_nonneg.mpr hge2, le_trans (sub_le_self _ hn) h2c⟩
  · exact ⟨h20, h2c⟩

lemma acquire_inv {b : Bucket} {c : AcqCall} (hb : BucketInv b)
    (hrate : 0 < b.rate) (hc : CallOk c) : BucketInv (acquire b c).2 := by
  obtain ⟨hn, he1, he2⟩ := hc
  have hb1 : BucketInv (refill b c.e1) := refill_inv hb he1 (le_of_lt hrate)
  obtain ⟨h10, h1c⟩ := hb1
  have haw : BucketInv (acquireAfterWait (refill b c.e1) c.n c.e2).2 :=
    acquireAfterWait_inv ⟨h10, h1c⟩ hn he2 (by simpa [refill] using hrate.le)
  unfold acquire
  dsimp only
  split
  · rename_i hge
    exact ⟨sub_nonneg.mpr hge, le_trans (sub_le_self _ hn) h1c⟩
  · rename_i hge
    split
    · exact ⟨h10, h1c⟩
    · split
      · exact ⟨h10, h1c⟩
      · split
        · exact ⟨h10, h1c⟩
        · split
          · split
            · split
              · exact ⟨h10, h1c⟩
              · exact haw
            · exact haw
          · -- `wait_time <= 0` with a positive deficit: impossible, rate > 0
            rename_i hwait
            exfalso
            have hdef : 0 < c.n - (refill b c.e1).tokens := by
              push_neg at hge
              exact sub_pos.mpr hge
            exact hwait (div_pos hdef (by simpa [refill] using hrate))

lemma acquireAfterWait_rate {b1 : Bucket} {n e2 : ℚ} :
    (acquireAfterWait b1 n e2).2.rate = b1.rate := by
  unfold acquireAfterWait
  dsimp only
  split <;> rfl

lemma acquire_rate {b : Bucket} {c : AcqCall} :
    (acquire b c).2.rate = b.rate := by
  unfold acquire
  dsimp only
  split
  · rfl
  · split
    · rfl
    · split
      · rfl
      · split
        · rfl
        · split
          · split
            · split
              · rfl
              · exact acquireAfterWait_rate
            · exact acquireAfterWait_rate
          · rfl

lemma runOps_inv {b : Bucket} {ops : List AcqCall} (hb : BucketInv b)
    (hrate : 0 < b.rate)
    (hops : ∀ c ∈ ops, CallOk c) : BucketInv (runOps b ops) := by
  induction ops generalizing b with
  | nil => simpa [runOps] using hb
  | cons c cs ih =>
    simp only [runOps]
    exact ih (acquire_inv hb hrate (hops c (List.mem_cons_self c cs)))
      (by rw [acquire_rate]; exact hrate)
      (fun d hd => hops d (List.mem_cons_of_mem c hd))

/- ===================================================================
   Section 2: string utilities shared by the parsers
   =================================================================== -/

/-- Python `\s` over ASCII: space, tab, newline, carriage return,
vertical tab, form feed. -/
def wsChar (c : Char) : Bool :=
  c = ' ' || c = '\t' || c = '\n' || c = '\r' || c = '\x0b' || c = '\x0c'

/-- Python `\d` over ASCII. -/
def digitChar (c : Char) : Bool := '0' ≤ c && c ≤ '9'

/-- Python `[A-Z]`. -/
def upperChar (c : Char) : Bool := 'A' ≤ c && c ≤ 'Z'

/-- Python `[A-Za-z]`. -/
def alphaChar (c : Char) : Bool := upperChar c || ('a' ≤ c && c ≤ 'z')

/-- Python `\w` over ASCII: `[A-Za-z0-9_]`. -/
def wordChar (c : Char) : Bool := alphaChar c || digitChar c || c = '_'

/-- Match a literal: if `cs` starts with `lit`, return the remainder. -/
def dropLit : List Char → List Char → Option (List Char)
  | [], cs => some cs
  | _ :: _, [] => none
  | l :: ls, c :: cs => if c = l then dropLit ls cs else none

/-- Python `str.strip()`: remove leading and trailing whitespace. -/
def pyStripL (l : List Char) : List Char :=
  ((l.dropWhile wsChar).reverse.dropWhile wsChar).reverse

def pyStrip (s : String) : String := ⟨pyStripL s.data⟩

/-- Python `str.splitlines()` for `\n`, `\r\n` and `\r` terminators
(the terminators that occur in this archive's documents): interior
empty lines are kept, a trailing terminator adds no empty line. -/
def splitlinesL : List Char → List Char → List (List Char)
  | acc, [] => if acc.isEmpty then [] else [acc.reverse]
  | acc, '\r' :: '\n' :: rest => acc.reverse :: splitlinesL [] rest
  | acc, '\n' :: rest => acc.reverse :: splitlinesL [] rest
  | acc, '\r' :: rest => acc.reverse :: splitlinesL [] rest
  | acc, c :: rest => splitlinesL (c :: acc) rest

def splitlines (s : String) : List String :=
  (splitlinesL [] s.data).map (⟨·⟩)

/-- Python `content[start:stop]` for `start ≤ stop` (the only uses here);
for `stop ≤ start` both give the empty string. -/
def pySlice (cs : List Char) (start stop : Nat) : List Char :=
  (cs.drop start).take (stop - start)

/-- All start indices of occurrences of the literal `pat` in `cs`
(first index reported is `i`).  `re.finditer` scans non-overlapping
occurrences, which coincides with all occurrences for the literals
used here (`<XML>`, `</XML>`), since they cannot overlap themselves. -/
def findOccs (pat : List Char) : List Char → Nat → List Nat
  | [], _ => []
  | cs@(_ :: cs'), i =>
    if (dropLit pat cs).isSome then i :: findOccs pat cs' (i + 1)
    else findOccs pat cs' (i + 1)

/-- Python `str.rfind(pat, from)`: index of the last occurrence of `pat`
at position `≥ from`, or `none`. -/
def pyRfindFrom (pat : List Char) (cs : List Char) (start : Nat) : Option Nat :=
  ((findOccs pat cs 0).filter (fun i => start ≤ i)).getLast?

/- ===================================================================
   Section 3: a small regex engine for the labeled-line patterns

   Every metadata pattern in `base_parser.py` has the shape
   `LITERAL` + optional `\s+` + one capture group made of greedy
   character-class runs and literal characters + optional literal
   suffix.  `re.search` semantics: leftmost position wins; at a given
   position the greedy `\s+` backtracks one character at a time until
   the capture matches.  In every pattern below, adjacent pieces of the
   capture draw from disjoint character sets (a digit run followed by
   `-`, a word run followed by `<`, ...), so inside the capture the
   maximal-run reading coincides with the backtracking reading.
   =================================================================== -/

/-- One piece of a capture group. -/
inductive CapToken where
  /-- greedy `C+` for a character class -/
  | plus (cls : Char → Bool)
  /-- `C{n}`: exactly `n` characters of the class -/
  | exact (n : Nat) (cls : Char → Bool)
  /-- a literal character inside the capture -/
  | lit (c : Char)

/-- Match one token at the head of `cs`, returning captured text and rest. -/
def capTok : CapToken → List Char → Option (List Char × List Char)
  | .plus cls, cs =>
    let run := cs.takeWhile cls
    if run.isEmpty then none else some (run, cs.drop run.length)
  | .exact n cls, cs =>
    let run := cs.takeWhile cls
    if n ≤ run.length then some (run.take n, cs.drop n) else none
  | .lit c, cs =>
    match cs with
    | d :: rest => if d = c then some ([c], rest) else none
    | [] => none

/-- Match a capture group (a token sequence) at the head of `cs`. -/
def capToks : List CapToken → List Char → Option (List Char × List Char)
  | [], cs => some ([], cs)
  | t :: ts, cs =>
    (capTok t cs).bind fun p =>
      (capToks ts p.2).map fun q => (p.1 ++ q.1, q.2)

/-- A labeled-line pattern `lit` + (`\s+` when `ws`) + capture + `suffix`. -/
structure LinePat where
  lit : List Char
  ws : Bool
  toks : List CapToken
  suffix : List Char

/-- Capture + literal suffix at the head of `cs`. -/
def capAndSuffix (p : LinePat) (cs : List Char) : Option (List Char) :=
  (capToks p.toks cs).bind fun q => (dropLit p.suffix q.2).map fun _ => q.1

/-- Backtrack the greedy `\s+`: try consuming `j` whitespace characters
for `j` from the maximal run length down to 1. -/
def backtrackWs (p : LinePat) (rest : List Char) : Nat → Option (List Char)
  | 0 => none
  | j + 1 =>
    match capAndSuffix p (rest.drop (j + 1)) with
    | some cap => some cap
    | none => backtrackWs p rest j

/-- Try the whole pattern at the current position. -/
def patCapAt (p : LinePat) (cs : List Char) : Option (List Char) :=
  (dropLit p.lit cs).bind fun rest =>
    if p.ws then backtrackWs p rest (rest.takeWhile wsChar).length
    else capAndSuffix p rest

/-- `re.search`: scan positions left to right, return the first capture. -/
def regexSearchAux (p : LinePat) : List Char → Option (List Char)
  | [] => none
  | cs@(_ :: cs') =>
    match patCapAt p cs with
    | some cap => some cap
    | none => regexSearchAux p cs'

def regexSearch (p : LinePat) (content : String) : Option String :=
  (regexSearchAux p content.data).map (⟨·⟩)

/-- Helper: `LABEL` + `\s+` + a single greedy class run (the most common
pattern shape, e.g. `CENTRAL INDEX KEY:\s+(\d+)`). -/
def mkPat (lab : String) (cls : Char → Bool) : LinePat :=
  { lit := lab.data, ws := true, toks := [.plus cls], suffix := [] }

/-- Python `.` (no DOTALL): any character except newline. -/
def dotChar (c : Char) : Bool := c != '\n'

/-- Python `[^[]`: any character except an opening square bracket. -/
def notLBracket (c : Char) : Bool := c != '['

/-- Python `[\w-]`. -/
def wordHyphen (c : Char) : Bool := wordChar c || c = '-'

/- ===================================================================
   Section 4: header and accession metadata extraction
   (parsers/base_parser.py; core/parser.py is field-wise identical up
   to `.strip()` calls on captures that cannot carry edge whitespace)
   =================================================================== -/

/-- The fields of `BaseFilingParser.parse_company_info`'s pattern table. -/
inductive CompanyField where
  | cik | irs_number | company_conformed_name | date | state_inc | sic
  | organization_name | fiscal_year_end
  | business_adress_street_1 | business_adress_street_2
  | business_adress_city | business_adress_state | business_adress_zip
  | business_phone
  | mail_adress_street_1 | mail_adress_street_2
  | mail_adress_city | mail_adress_state | mail_adress_zip
  | former_company_name | date_of_name_change
deriving Repr, DecidableEq

/-- The regex of each company-info field, exactly as in the source table
(lines 35-57 of base_parser.py). -/
def companyPattern : CompanyField → LinePat
  | .cik => mkPat "CENTRAL INDEX KEY:" digitChar
  | .irs_number => mkPat "IRS NUMBER:" digitChar
  | .company_conformed_name => mkPat "COMPANY CONFORMED NAME:" dotChar
  | .date => mkPat "DATE AS OF CHANGE:" digitChar
  | .state_inc => mkPat "STATE OF INCORPORATION:" upperChar
  | .sic => mkPat "STANDARD INDUSTRIAL CLASSIFICATION:" notLBracket
  | .organization_name => mkPat "ORGANIZATION NAME:" dotChar
  | .fiscal_year_end => mkPat "FISCAL YEAR END:" digitChar
  | .business_adress_street_1 => mkPat "STREET 1:" dotChar
  | .business_adress_street_2 => mkPat "STREET 2:" dotChar
  | .business_adress_city => mkPat "CITY:" alphaChar
  | .business_adress_state => mkPat "STATE:" upperChar
  | .business_adress_zip => mkPat "ZIP:" digitChar
  | .business_phone => mkPat "BUSINESS PHONE:" digitChar
  | .mail_adress_street_1 => mkPat "STREET 1:" dotChar
  | .mail_adress_street_2 => mkPat "STREET 2:" dotChar
  | .mail_adress_city => mkPat "CITY:" alphaChar
  | .mail_adress_state => mkPat "STATE:" upperChar
  | .mail_adress_zip => mkPat "ZIP:" digitChar
  | .former_company_name => mkPat "FORMER CONFORMED NAME:" dotChar
  | .date_of_name_change => mkPat "DATE OF NAME CHANGE:" digitChar

/-- `BaseFilingParser.parse_company_info`: each field is independently
`re.search`-ed with its own pattern and stripped; a failing pattern
yields `pd.NA`, modelled as `none`.  (The subsequent
`pd.to_datetime(..., errors="coerce")` reformatting of the two date
fields never raises and does not touch any other field.) -/
def parse_company_info (content : String) (f : CompanyField) : Option String :=
  (regexSearch (companyPattern f) content).map pyStrip

/-- The fields of `BaseFilingParser.parse_accession_info`'s pattern
table (lines 90-102 of base_parser.py). -/
inductive AccField where
  | cik | accession_number | doc_type | form_type | conformed_date
  | filed_date | effectiveness_date | public_document_count
  | sec_act | sec_file_number | film_number
deriving Repr, DecidableEq

/-- The regex of each accession-info field.  `CIK` requires exactly ten
digits (`\d{10}`); `ACCESSION_NUMBER` is `(\d+-\d+-\d+)`;
`FORM_TYPE` is `<type>([\w-]+)</type>` with no whitespace gap. -/
def accessionPattern : AccField → LinePat
  | .cik => { lit := "CENTRAL INDEX KEY:".data, ws := true,
              toks := [.exact 10 digitChar], suffix := [] }
  | .accession_number =>
      { lit := "ACCESSION NUMBER:".data, ws := true,
        toks := [.plus digitChar, .lit '-', .plus digitChar, .lit '-',
                 .plus digitChar],
        suffix := [] }
  | .doc_type => mkPat "CONFORMED SUBMISSION TYPE:" wordHyphen
  | .form_type => { lit := "<type>".data, ws := false,
                    toks := [.plus wordHyphen], suffix := "</type>".data }
  | .conformed_date => mkPat "CONFORMED PERIOD OF REPORT:" digitChar
  | .filed_date => mkPat "FILED AS OF DATE:" digitChar
  | .effectiveness_date => mkPat "EFFECTIVENESS DATE:" digitChar
  | .public_document_count => mkPat "PUBLIC DOCUMENT COUNT:" digitChar
  | .sec_act => mkPat "SEC ACT:" dotChar
  | .sec_file_number => mkPat "SEC FILE NUMBER:" dotChar
  | .film_number => mkPat "FILM NUMBER:" digitChar

/-- `BaseFilingParser.parse_accession_info`, capture stage: each field
independently searched and stripped, `pd.NA` (`none`) on a miss.
The later DataFrame steps reformat values in place (dates via
`errors="coerce"`, `ACCESSION_NUMBER` hyphen-stripped and floated, `CIK`
floated) and never turn an absent field into a present one or
vice versa; the hyphen-stripping is modelled by `accessionNumberKey`. -/
def parse_accession_info (content : String) (f : AccField) : Option String :=
  (regexSearch (accessionPattern f) content).map pyStrip

/-- `str.replace("-", "")`. -/
def removeHyphens (s : String) : String := ⟨s.data.filter (· != '-')⟩

/-- The canonical stored form of the accession id: hyphens stripped. -/
def accessionNumberKey (content : String) : Option String :=
  (parse_accession_info content .accession_number).map removeHyphens

/-- `BaseFilingParser.get_form_type` /
`ParserFactory._extract_form_type`: the conformed submission type, or
the empty string / `none` when absent. -/
def get_form_type (content : String) : Option String :=
  (regexSearch (mkPat "CONFORMED SUBMISSION TYPE:" wordHyphen) content).map pyStrip

/- ===================================================================
   Section 5: XML-region extraction
   (SECFilingParser.extract_xml, core/parser.py lines 113-145;
    Form13FParser.extract_xml, parsers/form_13f_parser.py lines 78-137)
   =================================================================== -/

def xmlStartTag : List Char := "<XML>".data

def xmlEndTag : List Char := "</XML>".data

/-- `list(zip(xml_start_tags, xml_end_tags))`: pair the start indices of
`<XML>` occurrences with the start indices of `</XML>` occurrences. -/
def xmlIndices (cs : List Char) : List (Nat × Nat) :=
  (findOccs xmlStartTag cs 0).zip (findOccs xmlEndTag cs 0)

/-- Scan for the first `?>` reachable without crossing a newline: the
lazy `.*?\?>` tail of `re.sub(r'\n<\?xml.*?\?>', '', ...)`.  Returns the
remainder after `?>`. -/
def findLazyEnd : List Char → Option (List Char)
  | [] => none
  | c :: rest =>
    if c = '?' ∧ rest.head? = some '>' then some rest.tail
    else if c = '\n' then none
    else findLazyEnd rest

lemma findLazyEnd_length {cs rem : List Char}
    (h : findLazyEnd cs = some rem) : rem.length ≤ cs.length := by
  induction cs with
  | nil => simp [findLazyEnd] at h
  | cons c rest ih =>
    simp only [findLazyEnd] at h
    split at h
    · cases h
      cases rest <;> (simp; try omega)
    · split at h
      · exact absurd h (by simp)
      · exact le_trans (ih h) (by simp)

def prologLit : List Char := "<?xml".data

lemma dropLit_length {l cs r : List Char}
    (h : dropLit l cs = some r) : r.length ≤ cs.length := by
  induction l generalizing cs with
  | nil =>
    simp only [dropLit, Option.some.injEq] at h
    subst h
    exact le_refl _
  | cons x xs ih =>
    cases cs with
    | nil => simp [dropLit] at h
    | cons c cs' =>
      simp only [dropLit] at h
      split at h
      · exact le_trans (ih h) (by simp)
      · exact absurd h (by simp)

/-- `re.sub(r'\n<\?xml.*?\?>', '', xml_content)`: scan left to right; at
each newline, if `<?xml` follows and a `?>` is reachable on the same
line, delete the whole match and continue after it; otherwise keep the
character.  `re.sub` replaces non-overlapping matches left to right.
The `fuel` (one unit per consumed character, so the input length always
suffices) only makes the recursion structural and kernel-reducible. -/
def stripPrologFuel : Nat → List Char → List Char
  | 0, cs => cs
  | _ + 1, [] => []
  | n + 1, c :: rest =>
    if c = '\n' then
      match dropLit prologLit rest with
      | some after =>
        match findLazyEnd after with
        | some rem => stripPrologFuel n rem
        | none => c :: stripPrologFuel n rest
      | none => c :: stripPrologFuel n rest
    else c :: stripPrologFuel n rest

def stripPrologAux (cs : List Char) : List Char := stripPrologFuel cs.length cs

/-- `SECFilingParser.extract_xml` "Method 1", shared with
`Form13FParser.extract_xml`: pick the second `(start, end)` pair when
there are at least two, else the first; slice up to `end + len("</XML>")`;
strip any inner XML prolog line. -/
def extract_xml_m1 (cs : List Char) : Option (List Char) :=
  match xmlIndices cs with
  | [] => none
  | (s, e) :: restPairs =>
    let pr := match restPairs with
      | p :: _ => p
      | [] => (s, e)
    some (stripPrologAux (pySlice cs pr.1 (pr.2 + xmlEndTag.length)))

/-- `SECFilingParser.extract_xml` (core/parser.py): the fragment
component of the returned triple; the accession-number and
conformed-date components are the unstripped captures of the same
regexes used by `parse_accession_info`. -/
def core_extract_xml (content : String) : Option String × Option String × Option String :=
  ((extract_xml_m1 content.data).map (⟨·⟩),
   (regexSearchAux (accessionPattern .accession_number) content.data).map (⟨·⟩),
   (regexSearchAux (accessionPattern .conformed_date) content.data).map (⟨·⟩))

/-- `<\?xml[^>]+\?>` matched at the current position: after the literal
`<?xml`, at least one non-`>` character must be consumed before `?>`.
Only the existence (and start position) matters to the source, which
uses `xml_decl_match.start()`. -/
def declScan : List Char → Bool → Bool
  | c :: rest, consumed =>
    if c = '?' ∧ rest.head? = some '>' then
      (if consumed then true else (if c = '>' then false else declScan rest true))
    else if c = '>' then false
    else declScan rest true
  | [], _ => false

def declMatchAt (cs : List Char) : Bool :=
  match dropLit prologLit cs with
  | some rest => declScan rest false
  | none => false

/-- `re.search(r'<\?xml[^>]+\?>', content).start()`. -/
def searchDecl : List Char → Nat → Option Nat
  | [], _ => none
  | cs@(_ :: cs'), i => if declMatchAt cs then some i else searchDecl cs' (i + 1)

/-- `<[^?][^>]*>` matched at the current position; returns `group(0)`. -/
def openTagMatchAt (cs : List Char) : Option (List Char) :=
  match cs with
  | '<' :: c :: rest =>
    if c = '?' then none
    else
      let run := rest.takeWhile (· != '>')
      match rest.drop run.length with
      | '>' :: _ => some ('<' :: c :: (run ++ ['>']))
      | _ => none
  | _ => none

def searchOpenTag : List Char → Option (List Char)
  | [] => none
  | cs@(_ :: cs') =>
    match openTagMatchAt cs with
    | some g => some g
    | none => searchOpenTag cs'

/-- Python `str.split()` (no argument): split on whitespace runs,
discarding empty pieces.  Fuel as in `stripPrologFuel`. -/
def splitWsFuel : Nat → List Char → List (List Char)
  | 0, _ => []
  | _ + 1, [] => []
  | n + 1, c :: rest =>
    if wsChar c then splitWsFuel n rest
    else
      let tok := rest.takeWhile (fun d => !wsChar d)
      (c :: tok) :: splitWsFuel n (rest.drop tok.length)

def splitWs (cs : List Char) : List (List Char) := splitWsFuel cs.length cs

/-- `opening_tag_match.group(0).strip('<>').split()[0]`: `none` models
the `IndexError` (caught by the enclosing `except`) when the stripped
tag text is all whitespace. -/
def tagNameOf (g : List Char) : Option (List Char) :=
  let angle : Char → Bool := fun c => c = '<' || c = '>'
  let inner := ((g.dropWhile angle).reverse.dropWhile angle).reverse
  (splitWs inner).head?

/-- Outcome of "Method 2" of `Form13FParser.extract_xml`. -/
inductive M2Result where
  | frag (f : List Char)
  | fallthrough
  | exn
deriving Repr, DecidableEq

/-- Method 2 (form_13f_parser.py lines 112-125): locate an XML
declaration, take the first opening tag after it, and slice up to the
last occurrence of the corresponding closing tag. -/
def form13f_method2 (cs : List Char) : M2Result :=
  match searchDecl cs 0 with
  | none => .fallthrough
  | some start =>
    match searchOpenTag (cs.drop start) with
    | none => .fallthrough
    | some g =>
      match tagNameOf g with
      | none => .exn
      | some tag =>
        let closing := '<' :: '/' :: (tag ++ ['>'])
        match pyRfindFrom closing cs start with
        | some cIdx =>
          if start < cIdx then .frag (pySlice cs start (cIdx + closing.length))
          else .fallthrough
        | none => .fallthrough

/-- Case-insensitive literal match (re.IGNORECASE). -/
def dropLitCI : List Char → List Char → Option (List Char)
  | [], cs => some cs
  | _ :: _, [] => none
  | l :: ls, c :: cs => if c.toLower = l.toLower then dropLitCI ls cs else none

def infoTableOpen : List Char := "<informationTable".data

def infoTableClose : List Char := "</informationTable>".data

/-- Lazy `.*?` with DOTALL up to the first `</informationTable>`
(case-insensitive): returns the number of characters skipped. -/
def findCloseCI : List Char → Nat → Option Nat
  | cs@(_ :: cs'), k =>
    if (dropLitCI infoTableClose cs).isSome then some k
    else findCloseCI cs' (k + 1)
  | [], _ => none

/-- `<informationTable[^>]*>.*?</informationTable>` (DOTALL, IGNORECASE)
matched at the current position; returns `group(0)`. -/
def m3MatchAt (cs : List Char) : Option (List Char) :=
  match dropLitCI infoTableOpen cs with
  | none => none
  | some rest =>
    let run := rest.takeWhile (· != '>')
    match rest.drop run.length with
    | '>' :: rest2 =>
      match findCloseCI rest2 0 with
      | some k =>
        some (cs.take (infoTableOpen.length + run.length + 1 + k + infoTableClose.length))
      | none => none
    | _ => none

def searchM3 : List Char → Option (List Char)
  | [] => none
  | cs@(_ :: cs') =>
    match m3MatchAt cs with
    | some g => some g
    | none => searchM3 cs'

/-- Method 3 (form_13f_parser.py lines 127-131): wrap the matched
`informationTable` region in literal `<XML>` tags. -/
def form13f_method3 (cs : List Char) : Option (List Char) :=
  (searchM3 cs).map (fun g => xmlStartTag ++ g ++ xmlEndTag)

/-- `Form13FParser.extract_xml`, fragment component: Method 1 when any
`<XML>` region pairing exists, else Method 2, else Method 3.  `none`
covers both "no fragment found" and the exception path (which in the
source also nulls the accession number and date). -/
def form13f_extract_xml_frag (cs : List Char) : Option (List Char) :=
  match xmlIndices cs with
  | (s, e) :: restPairs =>
    let pr := match restPairs with
      | p :: _ => p
      | [] => (s, e)
    some (stripPrologAux (pySlice cs pr.1 (pr.2 + xmlEndTag.length)))
  | [] =>
    match form13f_method2 cs with
    | .frag f => some f
    | .exn => none
    | .fallthrough => form13f_method3 cs

/-- `Form13FParser.extract_xml` as a triple, like the source. -/
def form13f_extract_xml (content : String) : Option String × Option String × Option String :=
  ((form13f_extract_xml_frag content.data).map (⟨·⟩),
   (regexSearchAux (accessionPattern .accession_number) content.data).map (⟨·⟩),
   (regexSearchAux (accessionPattern .conformed_date) content.data).map (⟨·⟩))

/- ===================================================================
   Section 6: holdings-table parsing
   (Form13FParser.parse_holdings, form_13f_parser.py lines 139-204;
    SECFilingParser.parse_holdings is identical except that it lacks
    the PUT_CALL column)

   `xml.etree.ElementTree` is standard-library code, not part of this
   repository; a parsed element is modelled as an `XTree` whose tag is
   a (namespace URI, local name) pair — ET stores the same data as the
   single string "{uri}local" — and whose `text` is `none` for an
   element with no text node (ET yields Python `None` there, e.g. for
   `<value></value>`).  `ET.fromstring` itself is an oracle parameter
   `et`: `parse_holdings`'s behaviour is quantified over it, with
   `et frag = none` modelling an `ET.ParseError`.
   =================================================================== -/

/- An ElementTree element.  The children sit in an `XForest` (an
inlined list) so that the traversals below are structurally recursive
and kernel-reducible. -/
mutual
inductive XTree where
  | node (ns : String) (tag : String) (text : Option String) (children : XForest)
inductive XForest where
  | nil
  | cons (t : XTree) (rest : XForest)
end

def XForest.toList : XForest → List XTree
  | .nil => []
  | .cons t rest => t :: rest.toList

def XForest.ofList : List XTree → XForest
  | [] => .nil
  | t :: rest => .cons t (XForest.ofList rest)

def XTree.children : XTree → List XTree
  | .node _ _ _ cs => cs.toList

def XTree.textOf : XTree → Option String
  | .node _ _ t _ => t

def XTree.hasTag (ns tag : String) : XTree → Bool
  | .node n t _ _ => n = ns && t = tag

/-- The `ns1` namespace of the holdings table. -/
def ns1 : String := "http://www.sec.gov/edgar/document/thirteenf/informationtable"

/- All proper subelements in document order (ET `.//` descends through
every level beneath the element, excluding the element itself);
`XForest.preorder` lists each tree of a forest followed by its own
descendants. -/
mutual
def XTree.descendants : XTree → List XTree
  | .node _ _ _ cs => XForest.preorder cs
def XForest.preorder : XForest → List XTree
  | .nil => []
  | .cons t rest => t :: (XTree.descendants t ++ XForest.preorder rest)
end

/-- `root.findall('.//ns1:infoTable', namespaces)`. -/
def findallInfoTables (root : XTree) : List XTree :=
  root.descendants.filter (XTree.hasTag ns1 "infoTable")

/-- `el.find('ns1:tag', namespaces)`: first child with the tag. -/
def findChild (e : XTree) (tag : String) : Option XTree :=
  e.children.find? (XTree.hasTag ns1 tag)

/-- `el.find('ns1:a/ns1:b', namespaces)`: first `b` grandchild through
an `a` child, in document order. -/
def findPath2 (e : XTree) (a b : String) : Option XTree :=
  ((e.children.filter (XTree.hasTag ns1 a)).flatMap
    (fun x => x.children.filter (XTree.hasTag ns1 b))).head?

/-- `find(...).text if find(...) is not None else pd.NA`: both the
missing element (`pd.NA`) and an element without text (`None`) are
absent cells; see `cellToStr` for how each prints in the numeric
pipeline. -/
def cellOfChild (e : XTree) (tag : String) : Option String :=
  (findChild e tag).bind XTree.textOf

def cellOfPath (e : XTree) (a b : String) : Option String :=
  (findPath2 e a b).bind XTree.textOf

/-- One row of the holdings loop, before the numeric conversions. -/
structure RawHolding where
  accession_number : Option String
  conformed_date : Option String
  name_of_issuer : Option String
  title_of_class : Option String
  cusip : Option String
  share_value : Option String
  share_amount : Option String
  sh_prn : Option String
  put_call : Option String
  discretion : Option String
  sole_voting_authority : Option String
  shared_voting_authority : Option String
  none_voting_authority : Option String
deriving Repr, DecidableEq

/-- The per-`infoTable` extraction (form_13f_parser.py lines 166-180). -/
def rawHoldingOf (acc date : Option String) (e : XTree) : RawHolding :=
  { accession_number := acc
    conformed_date := date
    name_of_issuer := cellOfChild e "nameOfIssuer"
    title_of_class := cellOfChild e "titleOfClass"
    cusip := cellOfChild e "cusip"
    share_value := cellOfChild e "value"
    share_amount := cellOfPath e "shrsOrPrnAmt" "sshPrnamt"
    sh_prn := cellOfPath e "shrsOrPrnAmt" "sshPrnamtType"
    put_call := cellOfChild e "putCall"
    discretion := cellOfChild e "investmentDiscretion"
    sole_voting_authority := cellOfPath e "votingAuthority" "Sole"
    shared_voting_authority := cellOfPath e "votingAuthority" "Shared"
    none_voting_authority := cellOfPath e "votingAuthority" "None" }

/-- `Series.astype(str)` on one cell: a found element's text prints as
itself, a Python `None` cell prints as `"None"` (a `pd.NA` cell prints
as `"<NA>"`; both are equally non-numeric, so one marker suffices for
the pipeline below). -/
def cellToStr : Option String → String
  | some s => s
  | none => "None"

/-- `.str.replace(r'\s+', '', regex=True)`: delete every whitespace
character. -/
def stripAllWs (s : String) : String := ⟨s.data.filter (fun c => !wsChar c)⟩

/-- `.replace('', '0')`: exact-match replacement of the empty string. -/
def emptyToZero (s : String) : String := if s = "" then "0" else s

/-- `float(s)` for the integral strings this table carries (optional
sign, then digits), followed by the exact `Int64` cast: `none` when the
string does not parse as a number. -/
def pyParseInt (s : String) : Option Int :=
  match s.data with
  | [] => none
  | '-' :: ds =>
    if ds ≠ [] ∧ ds.all digitChar then
      some (-(ds.foldl (fun a c => a * 10 + (c.toNat - '0'.toNat)) 0 : Nat))
    else none
  | '+' :: ds =>
    if ds ≠ [] ∧ ds.all digitChar then
      some ((ds.foldl (fun a c => a * 10 + (c.toNat - '0'.toNat)) 0 : Nat))
    else none
  | ds =>
    if ds.all digitChar then
      some ((ds.foldl (fun a c => a * 10 + (c.toNat - '0'.toNat)) 0 : Nat))
    else none

/-- The whole per-cell normalization chain
`astype(str) → strip \s+ → '' ↦ '0' → astype(float) → astype(Int64)`. -/
def normalizeCell (c : Option String) : Option Int :=
  pyParseInt (emptyToZero (stripAllWs (cellToStr c)))

/-- A converted row: the five numeric columns as integers. -/
structure Holding where
  accession_number : Option String
  conformed_date : Option String
  name_of_issuer : Option String
  title_of_class : Option String
  cusip : Option String
  share_value : Int
  share_amount : Int
  sh_prn : Option String
  put_call : Option String
  discretion : Option String
  sole_voting_authority : Int
  shared_voting_authority : Int
  none_voting_authority : Int
deriving Repr, DecidableEq

/-- Whether every numeric cell of the row converts.  The column-wise
`astype(float, errors="ignore").astype(pd.Int64Dtype())` chain succeeds
exactly when every cell of every numeric column parses; a single bad
cell leaves its column as strings and makes the `Int64` cast raise,
which the enclosing `except` turns into an empty DataFrame. -/
def rowOk (r : RawHolding) : Bool :=
  (normalizeCell r.share_value).isSome &&
  (normalizeCell r.share_amount).isSome &&
  (normalizeCell r.sole_voting_authority).isSome &&
  (normalizeCell r.shared_voting_authority).isSome &&
  (normalizeCell r.none_voting_authority).isSome

def convertRow (r : RawHolding) : Holding :=
  { accession_number := r.accession_number
    conformed_date := r.conformed_date
    name_of_issuer := r.name_of_issuer
    title_of_class := r.title_of_class
    cusip := r.cusip
    share_value := (normalizeCell r.share_value).getD 0
    share_amount := (normalizeCell r.share_amount).getD 0
    sh_prn := r.sh_prn
    put_call := r.put_call
    discretion := r.discretion
    sole_voting_authority := (normalizeCell r.sole_voting_authority).getD 0
    shared_voting_authority := (normalizeCell r.shared_voting_authority).getD 0
    none_voting_authority := (normalizeCell r.none_voting_authority).getD 0 }

/-- `parse_holdings` on an already-parsed tree: collect the rows, then
run the numeric conversions; any non-converting cell anywhere makes
the whole table degrade to the empty DataFrame. -/
def parse_holdings_tree (acc date : Option String) (root : XTree) : List Holding :=
  let raws := (findallInfoTables root).map (rawHoldingOf acc date)
  if raws.all rowOk then raws.map convertRow else []

/-- `Form13FParser.parse_holdings(xml_data, ...)`: `ET.fromstring` is
the oracle `et`; a parse failure (or any other exception) yields the
empty DataFrame. -/
def parse_holdings (et : String → Option XTree) (xml_data : String)
    (acc date : Option String) : List Holding :=
  match et xml_data with
  | none => []
  | some root => parse_holdings_tree acc date root

/- ===================================================================
   Section 7: persistence (core/data_organizer.py)

   The two CSV files and the holdings directory are modelled as lists:
   `accession_info.csv` as the list of appended rows, `company_info.csv`
   as a row list updated in place by CIK, and the holdings directory as
   an association list keyed by the derived (cik, accession) path.
   =================================================================== -/

structure Storage where
  accessionRows : List (AccField → Option String)
  companyRows : List (CompanyField → Option String)
  holdingsFiles : List ((String × String) × List Holding)

def emptyStorage : Storage := ⟨[], [], []⟩

/-- `DataOrganizer.save_accession_info`: `to_csv(..., mode="a")` — the
row is unconditionally appended, with no lookup of existing rows. -/
def save_accession_info (st : Storage) (row : AccField → Option String) : Storage :=
  { st with accessionRows := st.accessionRows ++ [row] }

/-- `DataOrganizer.save_company_info`: if a stored row carries the same
CIK, every such row is overwritten with the new one, otherwise the row
is appended. -/
def save_company_info (st : Storage) (row : CompanyField → Option String) : Storage :=
  if st.companyRows.any (fun r => r .cik == row .cik) then
    { st with companyRows :=
        st.companyRows.map (fun r => if r .cik == row .cik then row else r) }
  else
    { st with companyRows := st.companyRows ++ [row] }

/-- `DataOrganizer.save_holdings`: `to_csv` to
`holdings/{cik}/{accession}.csv` overwrites whatever was there. -/
def save_holdings (st : Storage) (h : List Holding) (cik accn : String) : Storage :=
  { st with holdingsFiles :=
      (st.holdingsFiles.filter (fun kv => kv.1 != (cik, accn))) ++ [((cik, accn), h)] }

/-- Leading-zero normalization of `str(int(...))` on a digit string. -/
def stripLeadingZeros (s : String) : String :=
  let ds := s.data.dropWhile (· = '0')
  if ds.isEmpty then "0" else ⟨ds⟩

/-- `str(int(field))` where the field holds a (possibly floated) digit
string: `none` models the `TypeError` raised by `int(pd.NA)`.
(For accession numbers of more than 15 digits the intermediate
`float64` in the source can round the value; the rounding affects only
the derived holdings file name and is not modelled.) -/
def intKeyOfField : Option String → Option String
  | none => none
  | some s => if s ≠ "" ∧ s.data.all digitChar then some (stripLeadingZeros s) else none

/-- `DataOrganizer.process_filing_data`: derive the path keys from the
accession row (raising — `none` — when CIK or accession number is
absent), then run the three saves in order.  Both `int()` calls happen
before any save, so a raise persists nothing. -/
def process_filing_data (st : Storage) (acc : AccField → Option String)
    (comp : CompanyField → Option String) (hold : List Holding) : Option Storage :=
  match intKeyOfField (acc .cik), intKeyOfField ((acc .accession_number).map removeHyphens) with
  | some cik, some accn =>
      some (save_holdings (save_company_info (save_accession_info st acc) comp) hold cik accn)
  | _, _ => none

/- ===================================================================
   Section 8: the process_filing entry points
   (core/parser.py lines 213-238; form_13f_parser.py lines 206-240)
   =================================================================== -/

/-- Python truthiness of the `if xml_data:` guards: `None` and the
empty string are falsy. -/
def pyTruthy : Option String → Bool
  | none => false
  | some s => s ≠ ""

/-- The argument triple of a `process_filing_data` call. -/
structure PersistReq where
  accession : AccField → Option String
  company : CompanyField → Option String
  holdings : List Holding

/-- `SECFilingParser.process_filing`: header and accession records are
always parsed, but `process_filing_data` is reached only inside
`if xml_data:` — `none` means the persistence step is never invoked. -/
def core_process_filing (et : String → Option XTree) (content : String) :
    Option PersistReq :=
  match core_extract_xml content with
  | (xml?, acc, date) =>
    if pyTruthy xml? then
      some ⟨parse_accession_info content, parse_company_info content,
            parse_holdings et (xml?.getD "") acc date⟩
    else none

/-- `Form13FParser.process_filing`: holdings default to the empty
DataFrame and are parsed only under `if xml_data:`; the validation
`not accession_info_df.empty and "ACCESSION_NUMBER" in columns` is
always true (the frame always has exactly one row and that column), so
`process_filing_data` is always invoked.  The accession record is the
base capture table; the 13F-specific columns the subclass adds are
disjoint from it and unused downstream.  The surrounding
`try/except: pass` swallows any exception raised inside
`process_filing_data` (modelled there as `none`). -/
def form13f_process_filing (et : String → Option XTree) (content : String) :
    PersistReq :=
  match form13f_extract_xml content with
  | (xml?, acc, date) =>
    ⟨parse_accession_info content, parse_company_info content,
     if pyTruthy xml? then parse_holdings et (xml?.getD "") acc date else []⟩

/- ===================================================================
   Section 9: fixed-width index parsing
   (SECDownloader._parse_form_idx, core/downloader.py lines 226-254)
   =================================================================== -/

/-- One parsed index row (a DocumentLocator before filename-based
CIK/accession extraction). -/
structure IdxEntry where
  form_type : String
  name : String
  cik : String
  date_filed : String
  filename : String
deriving Repr, DecidableEq

/-- The fixed byte-offset slices of one index line (lines 243-249). -/
def mkIdxEntry (line : List Char) : IdxEntry :=
  { form_type := ⟨pyStripL (pySlice line 0 12)⟩
    name := ⟨pyStripL (pySlice line 12 74)⟩
    cik := ⟨pyStripL (pySlice line 74 86)⟩
    date_filed := ⟨pyStripL (pySlice line 86 98)⟩
    filename := ⟨pyStripL (line.drop 98)⟩ }

/-- `set(line.strip()) == {"-"}`: the stripped line is nonempty and
consists of dashes only. -/
def isSepLine (line : List Char) : Bool :=
  let s := pyStripL line
  !s.isEmpty && s.all (· = '-')

/-- `_parse_form_idx` on the response text: find the separator line,
then slice every following line.  `StopIteration` (no separator) gives
an empty frame; the per-line `try` never fires because Python slicing
is total. -/
def parse_form_idx (text : String) : List IdxEntry :=
  let lines := splitlinesL [] text.data
  match lines.findIdx? isSepLine with
  | none => []
  | some i => (lines.drop (i + 1)).map mkIdxEntry

/- ===================================================================
   Theorems
   =================================================================== -/

lemma runOps_rate {b : Bucket} {ops : List AcqCall} :
    (runOps b ops).rate = b.rate := by
  induction ops generalizing b with
  | nil => rfl
  | cons c cs ih => simp only [runOps]; rw [ih, acquire_rate]

/-- C1: for every sequence of `acquire(tokens, block, timeout)` calls on
a `TokenBucketRateLimiter` (with any interleaving of nonnegative elapsed
times), the invariant `0 ≤ tokens ≤ capacity` holds after every prefix
of the sequence; a refill never lifts the count above `capacity`; and
the count is never negative after any call, in particular after a
successful acquisition. -/
theorem c1_token_bucket_invariant (b : Bucket) (ops : List AcqCall)
    (hrate : 0 < b.rate) (hb : BucketInv b) (hops : ∀ c ∈ ops, CallOk c) :
    (∀ k, BucketInv (runOps b (ops.take k))) ∧
    (∀ (q : Bucket) (e : ℚ), (refill q e).tokens ≤ q.capacity) ∧
    (∀ k c, CallOk c → 0 ≤ (acquire (runOps b (ops.take k)) c).2.tokens) := by
  have hpref : ∀ k, BucketInv (runOps b (ops.take k)) := fun k =>
    runOps_inv hb hrate (fun c hc => hops c (List.mem_of_mem_take hc))
  refine ⟨hpref, ?_, ?_⟩
  · intro q e
    simp only [refill]
    exact min_le_left _ _
  · intro k c hc
    exact (acquire_inv (hpref k) (by rw [runOps_rate]; exact hrate) hc).1

def c1Op1 : AcqCall :=
  { n := 1, block := false, timeout := none, e1 := 1/2, sChk := 0, s2 := 0, e2 := 0 }

def c1Op2 : AcqCall :=
  { n := 3, block := true, timeout := some 2, e1 := 1/4, sChk := 0, s2 := 1/10, e2 := 1/2 }

theorem c1_witness :
    BucketInv (runOps (mkBucket 7 none) ([c1Op1, c1Op2].take 2)) :=
  (c1_token_bucket_invariant (mkBucket 7 none) [c1Op1, c1Op2]
    (by norm_num [mkBucket]) (by constructor <;> norm_num [mkBucket])
    (by intro c hc
        fin_cases hc <;>
          exact ⟨by norm_num [c1Op1, c1Op2], by norm_num [c1Op1, c1Op2],
                 by norm_num [c1Op1, c1Op2]⟩)).1 2

/-- C7: `acquire` is a total function into `Bool × Bucket` (it never
raises): when the post-refill balance covers the cost it deducts and
returns `True` immediately; when insufficient and non-blocking it
returns `False` immediately; when blocking with a timeout smaller than
the required wait it returns `False` — an explicit not-acquired result,
not an exception. -/
theorem c7_acquire_contract (b : Bucket) (c : AcqCall) :
    (c.n ≤ (refill b c.e1).tokens →
      acquire b c = (true,
        { refill b c.e1 with tokens := (refill b c.e1).tokens - c.n })) ∧
    (¬ c.n ≤ (refill b c.e1).tokens → c.block = false →
      acquire b c = (false, refill b c.e1)) ∧
    (∀ t : ℚ, ¬ c.n ≤ (refill b c.e1).tokens → c.block = true →
      c.timeout = some t →
      t < (c.n - (refill b c.e1).tokens) / (refill b c.e1).rate →
      acquire b c = (false, refill b c.e1)) := by
  refine ⟨fun hge => ?_, fun hge hblk => ?_, fun t hge hblk hto hlt => ?_⟩
  · unfold acquire
    dsimp only
    rw [if_pos hge]
  · unfold acquire
    dsimp only
    rw [if_neg hge, hblk]
    simp
  · unfold acquire
    dsimp only
    rw [if_neg hge, hblk, hto]
    simp only [Bool.not_true, Bool.false_eq_true, if_false, Option.elim]
    rw [if_pos (by simpa using hlt)]

def c7Bucket : Bucket := { rate := 2, capacity := 4, tokens := 1 }

def c7CallA : AcqCall :=
  { n := 2, block := true, timeout := none, e1 := 1, sChk := 0, s2 := 0, e2 := 0 }

def c7CallB : AcqCall :=
  { n := 10, block := false, timeout := none, e1 := 0, sChk := 0, s2 := 0, e2 := 0 }

def c7CallC : AcqCall :=
  { n := 10, block := true, timeout := some 1, e1 := 0, sChk := 0, s2 := 0, e2 := 0 }

theorem c7_witness :
    (acquire c7Bucket c7CallA).1 = true ∧
    (acquire c7Bucket c7CallB).1 = false ∧
    (acquire c7Bucket c7CallC).1 = false := by
  refine ⟨?_, ?_, ?_⟩
  · rw [(c7_acquire_contract c7Bucket c7CallA).1
      (by norm_num [c7Bucket, c7CallA, refill])]
  · rw [(c7_acquire_contract c7Bucket c7CallB).2.1
      (by norm_num [c7Bucket, c7CallB, refill]) rfl]
  · rw [(c7_acquire_contract c7Bucket c7CallC).2.2 1
      (by norm_num [c7Bucket, c7CallC, refill]) rfl rfl
      (by norm_num [c7Bucket, c7CallC, refill])]

/-- C9: for every input text, the header record's mail-address fields
equal the corresponding business-address fields: both groups are
extracted by the identical pattern with the identical first-match
search over the same text. -/
theorem c9_mail_equals_business (content : String) :
    parse_company_info content .mail_adress_street_1 =
      parse_company_info content .business_adress_street_1 ∧
    parse_company_info content .mail_adress_street_2 =
      parse_company_info content .business_adress_street_2 ∧
    parse_company_info content .mail_adress_city =
      parse_company_info content .business_adress_city ∧
    parse_company_info content .mail_adress_state =
      parse_company_info content .business_adress_state ∧
    parse_company_info content .mail_adress_zip =
      parse_company_info content .business_adress_zip :=
  ⟨rfl, rfl, rfl, rfl, rfl⟩

/-- C6: header extraction is per-field independent: each field's value
is a function of its own pattern's match alone (so a document in which
some other field's line is missing or changed yields the same value),
and a field whose pattern fails to match becomes an explicit `none`
without aborting the record. -/
theorem c6_header_field_independence :
    (∀ (c₁ c₂ : String) (f : CompanyField),
      regexSearch (companyPattern f) c₁ = regexSearch (companyPattern f) c₂ →
      parse_company_info c₁ f = parse_company_info c₂ f) ∧
    (∀ (content : String) (f : CompanyField),
      regexSearch (companyPattern f) content = none →
      parse_company_info content f = none) := by
  constructor
  · intro c₁ c₂ f h
    unfold parse_company_info
    rw [h]
  · intro content f h
    unfold parse_company_info
    rw [h]
    rfl

def c6DocA : String :=
  "COMPANY CONFORMED NAME:   TEST COMPANY INC\nSTATE OF INCORPORATION:   DE\nFISCAL YEAR END:  1231\n"

def c6DocB : String :=
  "COMPANY CONFORMED NAME:   TEST COMPANY INC\nFISCAL YEAR END:  1231\n"

theorem c6_witness :
    parse_company_info c6DocA .company_conformed_name =
      parse_company_info c6DocB .company_conformed_name ∧
    parse_company_info c6DocB .state_inc = none ∧
    parse_company_info c6DocB .company_conformed_name = some "TEST COMPANY INC" :=
  ⟨c6_header_field_independence.1 c6DocA c6DocB .company_conformed_name (by decide),
   c6_header_field_independence.2 c6DocB .state_inc (by decide),
   by decide⟩

def c2Acc : AccField → Option String := fun f =>
  match f with
  | .cik => some "0001234567"
  | .accession_number => some "0001234567-24-000789"
  | _ => none

def c2Comp : CompanyField → Option String := fun f =>
  match f with
  | .cik => some "0001234567"
  | .company_conformed_name => some "TEST COMPANY INC"
  | _ => none

/-- C2 (code-bug evidence): running `process_filing_data` twice with the
identical parsed records for the accession id `0001234567-24-000789`
leaves TWO rows for that accession id in the accession-info store, not
one: `save_accession_info` appends unconditionally (`to_csv(mode="a")`),
so re-ingestion duplicates the FilingRecord, contradicting the spec's
idempotency requirement. -/
theorem c2_reingestion_duplicates :
    ((process_filing_data emptyStorage c2Acc c2Comp []).bind
      fun st1 => process_filing_data st1 c2Acc c2Comp []).map
      (fun st2 => (st2.accessionRows.filter
        (fun r => r .accession_number == some "0001234567-24-000789")).length)
      = some 2 := by
  decide

lemma findIdx?_append_sep {p : List Char → Bool} {pre rest : List (List Char)}
    {sep : List Char} (hpre : ∀ l ∈ pre, p l = false) (hsep : p sep = true) :
    (pre ++ sep :: rest).findIdx? p = some pre.length := by
  induction pre with
  | nil => simp [List.findIdx?_cons, hsep]
  | cons a as ih =>
    have ha : p a = false := hpre a (by simp)
    simp [List.findIdx?_cons, ha, ih (fun l hl => hpre l (by simp [hl]))]

/-- C8: for every index text whose line list is some non-separator
lines, then a dash separator line, then data lines, every data line is
sliced into the fixed byte-offset columns `[0,12)` form type, `[12,74)`
name, `[74,86)` entity id, `[86,98)` filing date, `[98,end)` filename
(see `mkIdxEntry`), whitespace-stripped, one record per line. -/
theorem c8_parse_form_idx (text : String) (pre rest : List (List Char))
    (sep : List Char)
    (hsplit : splitlinesL [] text.data = pre ++ sep :: rest)
    (hpre : ∀ l ∈ pre, isSepLine l = false)
    (hsep : isSepLine sep = true) :
    parse_form_idx text = rest.map mkIdxEntry := by
  unfold parse_form_idx
  rw [hsplit]
  dsimp only
  rw [findIdx?_append_sep hpre hsep]
  have hdrop : (pre ++ sep :: rest).drop (pre.length + 1) = rest := by
    have h2 : pre ++ sep :: rest = (pre ++ [sep]) ++ rest := by simp
    have hlen : (pre ++ [sep]).length = pre.length + 1 := by simp
    rw [h2, ← hlen, List.drop_left]
  dsimp only
  rw [hdrop]

def c8Header : String := "Form Type   Company Name"

def c8Sep : String := "--------------------------------------------"

def c8Line1 : String :=
  "13F-HR      APPLE CAPITAL MANAGEMENT LLC                                  1234567     2024-02-15  edgar/data/1234567/0001234567-24-000789.txt"

def c8Line2 : String :=
  "10-K        BANANA HOLDINGS CORP                                          7654321     2024-03-01  edgar/data/7654321/0007654321-24-000111.txt"

def c8Idx : String :=
  c8Header ++ "\n" ++ c8Sep ++ "\n" ++ c8Line1 ++ "\n" ++ c8Line2 ++ "\n"

theorem c8_witness :
    parse_form_idx c8Idx =
      [{ form_type := "13F-HR", name := "APPLE CAPITAL MANAGEMENT LLC",
         cik := "1234567", date_filed := "2024-02-15",
         filename := "edgar/data/1234567/0001234567-24-000789.txt" },
       { form_type := "10-K", name := "BANANA HOLDINGS CORP",
         cik := "7654321", date_filed := "2024-03-01",
         filename := "edgar/data/7654321/0007654321-24-000111.txt" }] := by
  rw [c8_parse_form_idx c8Idx [c8Header.data] [c8Line1.data, c8Line2.data]
    c8Sep.data (by decide) (by decide) (by decide)]
  decide

def c5Doc : String :=
  "CENTRAL INDEX KEY:   0001234567\nCOMPANY CONFORMED NAME:   TEST COMPANY INC\nACCESSION NUMBER:   0001234567-24-000789\nCONFORMED SUBMISSION TYPE:  13F-HR\n"

/-- C5 counterexample: on a document with parsable header and filing
records but no holdings XML region, `SECFilingParser.process_filing`
(core/parser.py lines 229-238) never reaches `process_filing_data`:
nothing is persisted, contradicting the claim that the document-level
records are still persisted whenever no holdings region is found. -/
theorem c5_counterexample :
    core_process_filing (fun _ => none) c5Doc = none ∧
    parse_accession_info c5Doc .accession_number = some "0001234567-24-000789" ∧
    parse_company_info c5Doc .company_conformed_name = some "TEST COMPANY INC" :=
  ⟨rfl, by decide, by decide⟩

/-- C5 (amended): when the extracted fragment fails to parse as XML,
both `SECFilingParser.process_filing` and `Form13FParser.process_filing`
still invoke the persistence step with the parsed header and filing
records and an empty holdings table; when NO holdings XML region is
found at all, `Form13FParser.process_filing` still invokes persistence
with empty holdings, but `SECFilingParser.process_filing` skips
persistence entirely. -/
theorem c5_amended :
    (∀ (et : String → Option XTree) (content xml : String)
       (acc date : Option String),
      core_extract_xml content = (some xml, acc, date) → xml ≠ "" →
      et xml = none →
      core_process_filing et content =
        some ⟨parse_accession_info content, parse_company_info content, []⟩) ∧
    (∀ (et : String → Option XTree) (content : String),
      (form13f_extract_xml content).1 = none →
      form13f_process_filing et content =
        ⟨parse_accession_info content, parse_company_info content, []⟩) ∧
    (∀ (et : String → Option XTree) (content xml : String)
       (acc date : Option String),
      form13f_extract_xml content = (some xml, acc, date) → xml ≠ "" →
      et xml = none →
      form13f_process_filing et content =
        ⟨parse_accession_info content, parse_company_info content, []⟩) := by
  refine ⟨?_, ?_, ?_⟩
  · intro et content xml acc date hx hne het
    unfold core_process_filing
    rw [hx]
    simp only [pyTruthy, hne, ne_eq, decide_not, Option.getD_some]
    simp [pyTruthy, hne, parse_holdings, het]
  · intro et content h1
    unfold form13f_process_filing
    rcases hEq : form13f_extract_xml content with ⟨xml?, acc, date⟩
    rw [hEq] at h1
    simp only at h1
    subst h1
    simp [pyTruthy]
  · intro et content xml acc date hx hne het
    unfold form13f_process_filing
    rw [hx]
    simp [pyTruthy, hne, parse_holdings, het]

theorem c5_witness :
    form13f_process_filing (fun _ => none) c5Doc =
      ⟨parse_accession_info c5Doc, parse_company_info c5Doc, []⟩ :=
  c5_amended.2.1 (fun _ => none) c5Doc rfl

def mkCell (tag : String) (txt : Option String) : XTree := .node ns1 tag txt .nil

/-- A holdings table with one entry whose `<value>` text is `valueTxt`
(`none` models `<value></value>`, whose ElementTree `.text` is `None`). -/
def c4InfoTable (valueTxt : Option String) : XTree :=
  .node ns1 "infoTable" none (XForest.ofList
    [ mkCell "nameOfIssuer" (some "APPLE INC"),
      mkCell "titleOfClass" (some "COM"),
      mkCell "cusip" (some "037833100"),
      .node ns1 "value" valueTxt .nil,
      .node ns1 "shrsOrPrnAmt" none (XForest.ofList
        [ mkCell "sshPrnamt" (some "10000"), mkCell "sshPrnamtType" (some "SH") ]),
      mkCell "investmentDiscretion" (some "SOLE"),
      .node ns1 "votingAuthority" none (XForest.ofList
        [ mkCell "Sole" (some "10000"), mkCell "Shared" (some "0"),
          mkCell "None" (some "0") ]) ])

def c4Root (valueTxt : Option String) : XTree :=
  .node ns1 "informationTable" none (XForest.ofList [c4InfoTable valueTxt])

/-- C4 counterexample: a holdings entry whose `<value>` field is
unparsable (`"12a3"`), or an empty `<value></value>` element (whose
ElementTree text is `None`, stringified to `"None"`), does NOT
normalize to the integer 0: the failed `astype(float)` leaves the
column as strings, the `astype(Int64)` cast raises, and the enclosing
`except` degrades the WHOLE holdings table to empty — no record with a
zero is produced. -/
theorem c4_counterexample :
    parse_holdings (fun _ => some (c4Root (some "12a3"))) "frag"
      (some "acc") (some "20240215") = [] ∧
    parse_holdings (fun _ => some (c4Root none)) "frag"
      (some "acc") (some "20240215") = [] := by
  constructor <;> rfl

/-- C4 (amended): the zero-fill policy applies to whitespace-only (or
empty-string) numeric cell text — after stripping embedded whitespace
the empty string is replaced by `"0"` and parses to 0 — provided every
numeric cell of the table parses; a table containing any non-numeric
cell (including a text-less element) degrades entirely to an empty
table instead.  Header parsing keeps the distinct absence policy: a
document with no `IRS NUMBER` line yields an absent `IRS_NUMBER`, not
zero. -/
theorem c4_amended :
    (∀ s : String, s.data.all wsChar = true → normalizeCell (some s) = some 0) ∧
    (∀ (acc date : Option String) (root : XTree),
      ((findallInfoTables root).map (rawHoldingOf acc date)).all rowOk = false →
      parse_holdings_tree acc date root = []) ∧
    (∀ content : String,
      regexSearch (companyPattern .irs_number) content = none →
      parse_company_info content .irs_number = none) := by
  refine ⟨?_, ?_, ?_⟩
  · intro s hs
    have hnil : s.data.filter (fun c => !wsChar c) = [] := by
      rw [List.filter_eq_nil_iff]
      intro a ha
      simp only [List.all_eq_true] at hs
      simp [hs a ha]
    unfold normalizeCell cellToStr stripAllWs
    rw [hnil]
    rfl
  · intro acc date root h
    unfold parse_holdings_tree
    simp [h]
  · intro content h
    unfold parse_company_info
    rw [h]
    rfl

def c4DocNoIrs : String :=
  "CENTRAL INDEX KEY:   0001234567\nCOMPANY CONFORMED NAME:  X\n"

theorem c4_witness :
    normalizeCell (some " ") = some 0 ∧
    parse_company_info c4DocNoIrs .irs_number = none ∧
    parse_holdings_tree (some "acc") (some "20240215") (c4Root (some " ")) =
      [{ accession_number := some "acc", conformed_date := some "20240215",
         name_of_issuer := some "APPLE INC", title_of_class := some "COM",
         cusip := some "037833100", share_value := 0, share_amount := 10000,
         sh_prn := some "SH", put_call := none, discretion := some "SOLE",
         sole_voting_authority := 10000, shared_voting_authority := 0,
         none_voting_authority := 0 }] :=
  ⟨c4_amended.1 " " (by decide), c4_amended.2.2 c4DocNoIrs (by decide), by decide⟩

/- Helper lemmas about the regex engine on well-formed labeled lines. -/

lemma dropLit_append (l r : List Char) : dropLit l (l ++ r) = some r := by
  induction l with
  | nil => rfl
  | cons c cs ih => simp [dropLit, ih]

lemma takeWhile_append_all {p : Char → Bool} {l r : List Char}
    (hl : ∀ c ∈ l, p c = true) :
    (l ++ r).takeWhile p = l ++ r.takeWhile p := by
  induction l with
  | nil => rfl
  | cons c cs ih =>
    simp only [List.cons_append, List.takeWhile_cons,
      hl c (List.mem_cons_self c cs),
      ih (fun d hd => hl d (List.mem_cons_of_mem c hd)), if_true]

lemma dropWhile_eq_self_of_all {p : Char → Bool} {l : List Char}
    (h : ∀ c ∈ l, p c = false) : l.dropWhile p = l := by
  cases l with
  | nil => rfl
  | cons c cs => simp [List.dropWhile_cons, h c (List.mem_cons_self c cs)]

lemma ws_not_digit {c : Char} (h : wsChar c = true) : digitChar c = false := by
  unfold wsChar at h
  simp only [Bool.or_eq_true, decide_eq_true_eq] at h
  rcases h with ((((h|h)|h)|h)|h)|h <;> subst h <;> decide

lemma digit_not_ws {c : Char} (h : digitChar c = true) : wsChar c = false := by
  cases hw : wsChar c
  · rfl
  · rw [ws_not_digit hw] at h
    cases h

lemma digit_ne {c x : Char} (h : digitChar c = true)
    (hx : digitChar x = false) : c ≠ x := by
  intro he
  subst he
  rw [h] at hx
  cases hx

lemma pyStripL_of_no_ws {l : List Char} (h : ∀ c ∈ l, wsChar c = false) :
    pyStripL l = l := by
  unfold pyStripL
  rw [dropWhile_eq_self_of_all h,
      dropWhile_eq_self_of_all (fun c hc => h c (List.mem_reverse.mp hc)),
      List.reverse_reverse]

def cikLit : List Char := "CENTRAL INDEX KEY:".data

/-- A document whose `CENTRAL INDEX KEY:` line carries the digit run
`run`. -/
def cikDoc (run : String) : String := "CENTRAL INDEX KEY: " ++ run ++ "\n"

lemma cikDoc_data (run : String) :
    (cikDoc run).data = cikLit ++ ' ' :: (run.data ++ ['\n']) := by
  have h1 : ("CENTRAL INDEX KEY: " : String).data = cikLit ++ [' '] := by decide
  simp only [cikDoc, String.data_append, h1, List.append_assoc, List.singleton_append]
  rfl

lemma capAndSuffix_plus_digits {p : LinePat} (ht : p.toks = [.plus digitChar])
    (hs : p.suffix = []) {run r : List Char} (hne : run ≠ [])
    (hdig : ∀ c ∈ run, digitChar c = true)
    (hr : r.takeWhile digitChar = []) :
    capAndSuffix p (run ++ r) = some run := by
  have hemp : run.isEmpty = false := by
    cases run
    · exact absurd rfl hne
    · rfl
  unfold capAndSuffix
  rw [ht, hs]
  simp only [capToks, capTok]
  rw [takeWhile_append_all hdig, hr, List.append_nil]
  simp only [hemp, Bool.false_eq_true, if_false, List.drop_left, Option.some_bind,
    Option.map_some, Option.bind_some]
  simp [dropLit]

lemma capAndSuffix_exact10 {p : LinePat} (ht : p.toks = [.exact 10 digitChar])
    (hs : p.suffix = []) {run r : List Char}
    (hdig : ∀ c ∈ run, digitChar c = true)
    (hr : r.takeWhile digitChar = []) :
    capAndSuffix p (run ++ r) =
      if 10 ≤ run.length then some (run.take 10) else none := by
  unfold capAndSuffix
  rw [ht, hs]
  simp only [capToks, capTok]
  rw [takeWhile_append_all hdig, hr, List.append_nil]
  by_cases h10 : 10 ≤ run.length
  · simp only [h10, if_true, Option.some_bind, Option.map_some, Option.bind_some]
    simp [dropLit]
  · simp [h10]

lemma takeWhile_ws_space_digits {run : List Char} (hne : run ≠ [])
    (hdig : ∀ c ∈ run, digitChar c = true) :
    (' ' :: (run ++ ['\n'])).takeWhile wsChar = [' '] := by
  obtain ⟨r0, rs, rfl⟩ : ∃ r0 rs, run = r0 :: rs := by
    cases run with
    | nil => exact absurd rfl hne
    | cons r0 rs => exact ⟨r0, rs, rfl⟩
  have h0 : wsChar r0 = false := digit_not_ws (hdig r0 (by simp))
  simp [List.takeWhile_cons, h0]
  decide

lemma patCapAt_cik_company {run : List Char} (hne : run ≠ [])
    (hdig : ∀ c ∈ run, digitChar c = true) :
    patCapAt (companyPattern .cik) (cikLit ++ ' ' :: (run ++ ['\n'])) = some run := by
  have hlit : (companyPattern .cik).lit = cikLit := rfl
  unfold patCapAt
  rw [hlit, dropLit_append]
  rw [show (companyPattern .cik).ws = true from rfl]
  simp only [Option.some_bind, if_true]
  rw [takeWhile_ws_space_digits hne hdig]
  simp only [List.length_cons, List.length_nil, Nat.zero_add]
  unfold backtrackWs
  rw [show (' ' :: (run ++ ['\n'])).drop (0 + 1) = run ++ ['\n'] from rfl]
  rw [capAndSuffix_plus_digits rfl rfl hne hdig (by decide)]

lemma patCapAt_cik_accession {run : List Char} (hne : run ≠ [])
    (hdig : ∀ c ∈ run, digitChar c = true) :
    patCapAt (accessionPattern .cik) (cikLit ++ ' ' :: (run ++ ['\n'])) =
      if 10 ≤ run.length then some (run.take 10) else none := by
  have hlit : (accessionPattern .cik).lit = cikLit := rfl
  unfold patCapAt
  rw [hlit, dropLit_append]
  rw [show (accessionPattern .cik).ws = true from rfl]
  simp only [Option.some_bind, if_true]
  rw [takeWhile_ws_space_digits hne hdig]
  simp only [List.length_cons, List.length_nil, Nat.zero_add]
  unfold backtrackWs
  rw [show (' ' :: (run ++ ['\n'])).drop (0 + 1) = run ++ ['\n'] from rfl]
  rw [capAndSuffix_exact10 rfl rfl hdig (by decide)]
  by_cases h10 : 10 ≤ run.length
  · simp [h10]
  · simp only [h10, if_false]
    unfold backtrackWs
    rfl

lemma regexSearchAux_cons_some {p : LinePat} {c : Char} {cs : List Char}
    {cap : List Char} (h : patCapAt p (c :: cs) = some cap) :
    regexSearchAux p (c :: cs) = some cap := by
  simp [regexSearchAux, h]

lemma regexSearchAux_cons_none {p : LinePat} {c : Char} {cs : List Char}
    (h : patCapAt p (c :: cs) = none) :
    regexSearchAux p (c :: cs) = regexSearchAux p cs := by
  simp [regexSearchAux, h]

lemma regexSearchAux_no_head {p : LinePat} {c0 : Char} {ls : List Char}
    (hl : p.lit = c0 :: ls) :
    ∀ {cs : List Char}, (∀ c ∈ cs, c ≠ c0) → regexSearchAux p cs = none := by
  intro cs
  induction cs with
  | nil => intro _; rfl
  | cons c cs' ih =>
    intro h
    have hcap : patCapAt p (c :: cs') = none := by
      unfold patCapAt
      rw [hl]
      simp [dropLit, h c (by simp)]
    simp [regexSearchAux, hcap, ih (fun d hd => h d (by simp [hd]))]

lemma regexSearchAux_cikLit_some {p : LinePat} {X : List Char} {cap : List Char}
    (h : patCapAt p (cikLit ++ X) = some cap) :
    regexSearchAux p (cikLit ++ X) = some cap := by
  have he : cikLit ++ X = 'C' :: ("ENTRAL INDEX KEY:".data ++ X) := rfl
  rw [he] at h ⊢
  exact regexSearchAux_cons_some h

lemma regexSearchAux_cikLit_none {p : LinePat} {X : List Char}
    (hl : p.lit = 'C' :: "ENTRAL INDEX KEY:".data)
    (h : patCapAt p (cikLit ++ X) = none)
    (htail : ∀ c ∈ ("ENTRAL INDEX KEY:".data ++ X), c ≠ 'C') :
    regexSearchAux p (cikLit ++ X) = none := by
  have he : cikLit ++ X = 'C' :: ("ENTRAL INDEX KEY:".data ++ X) := rfl
  rw [he] at h ⊢
  rw [regexSearchAux_cons_none h]
  exact regexSearchAux_no_head hl htail

lemma cik_tail_no_C {run : List Char} (hdig : ∀ c ∈ run, digitChar c = true) :
    ∀ c ∈ ("ENTRAL INDEX KEY:".data ++ ' ' :: (run ++ ['\n'])), c ≠ 'C' := by
  have hconc : ∀ c ∈ ("ENTRAL INDEX KEY:".data : List Char), c ≠ 'C' := by decide
  intro c hc
  rcases List.mem_append.mp hc with h | h
  · exact hconc c h
  · rcases List.mem_cons.mp h with rfl | h2
    · decide
    · rcases List.mem_append.mp h2 with h3 | h3
      · exact digit_ne (hdig c h3) (by decide)
      · rcases List.mem_singleton.mp h3 with rfl
        decide

/-- C10 (amended): in `parse_accession_info` the CIK pattern `(\d{10})`
yields an absent field when the document's digit run is SHORTER than 10,
but on a run of 10 or more digits it matches the first ten digits; in
`parse_company_info` the `(\d+)` pattern always yields the whole run.
The two extraction paths agree exactly when the run has exactly ten
digits (i.e. is already zero-padded to width 10). -/
theorem c10_amended (run : String) (hne : run.data ≠ [])
    (hdig : ∀ c ∈ run.data, digitChar c = true) :
    (run.length < 10 → parse_accession_info (cikDoc run) .cik = none) ∧
    (10 ≤ run.length → parse_accession_info (cikDoc run) .cik =
      some ⟨run.data.take 10⟩) ∧
    parse_company_info (cikDoc run) .cik = some run ∧
    (parse_accession_info (cikDoc run) .cik = parse_company_info (cikDoc run) .cik
      ↔ run.length = 10) := by
  have hdata := cikDoc_data run
  have hnws : ∀ c ∈ run.data, wsChar c = false :=
    fun c hc => digit_not_ws (hdig c hc)
  have hcomp : parse_company_info (cikDoc run) .cik = some run := by
    unfold parse_company_info regexSearch
    rw [hdata, regexSearchAux_cikLit_some (patCapAt_cik_company hne hdig)]
    show some (pyStrip ⟨run.data⟩) = some run
    rw [show pyStrip ⟨run.data⟩ = (⟨pyStripL run.data⟩ : String) from rfl,
        pyStripL_of_no_ws hnws]
  have hacc_lt : run.length < 10 →
      parse_accession_info (cikDoc run) .cik = none := by
    intro hlt
    unfold parse_accession_info regexSearch
    rw [hdata, regexSearchAux_cikLit_none rfl
      (by rw [patCapAt_cik_accession hne hdig]
          exact if_neg (by exact Nat.not_le.mpr hlt))
      (cik_tail_no_C hdig)]
    rfl
  have hacc_ge : 10 ≤ run.length →
      parse_accession_info (cikDoc run) .cik = some ⟨run.data.take 10⟩ := by
    intro hge
    unfold parse_accession_info regexSearch
    rw [hdata, regexSearchAux_cikLit_some
      (by rw [patCapAt_cik_accession hne hdig]
          exact if_pos hge)]
    show some (pyStrip ⟨run.data.take 10⟩) = some ⟨run.data.take 10⟩
    rw [show pyStrip ⟨run.data.take 10⟩
          = (⟨pyStripL (run.data.take 10)⟩ : String) from rfl,
        pyStripL_of_no_ws (fun c hc => hnws c (List.mem_of_mem_take hc))]
  refine ⟨hacc_lt, hacc_ge, hcomp, ?_⟩
  constructor
  · intro heq
    rcases Nat.lt_or_ge run.length 10 with hlt | hge
    · rw [hacc_lt hlt, hcomp] at heq
      exact absurd heq (by simp)
    · rw [hacc_ge hge, hcomp] at heq
      have hdata_eq : run.data.take 10 = run.data := by
        have := Option.some.inj heq
        exact congrArg String.data this
      have hle : run.data.length ≤ 10 := (List.take_eq_self_iff _).mp hdata_eq
      exact Nat.le_antisymm hle hge
  · intro h10
    rw [hacc_ge (Nat.le_of_eq h10.symm), hcomp]
    have : run.data.take 10 = run.data :=
      (List.take_eq_self_iff _).mpr (Nat.le_of_eq h10)
    rw [this]

/-- C10 counterexample: on a 12-digit `CENTRAL INDEX KEY` run — length
other than exactly 10 — `parse_accession_info` does NOT yield an absent
CIK: `(\d{10})` matches the first ten digits, while
`parse_company_info` captures the whole run; the two paths disagree but
neither is absent, refuting the claim as stated. -/
theorem c10_counterexample :
    parse_accession_info (cikDoc "123456789012") .cik = some "1234567890" ∧
    parse_company_info (cikDoc "123456789012") .cik = some "123456789012" ∧
    ("123456789012" : String).length ≠ 10 :=
  ⟨by decide, by decide, by decide⟩

theorem c10_witness :
    parse_accession_info (cikDoc "12345678901") .cik = some "1234567890" ∧
    parse_company_info (cikDoc "12345678901") .cik = some "12345678901" :=
  ⟨(c10_amended "12345678901" (by decide) (by decide)).2.1 (by decide),
   (c10_amended "12345678901" (by decide) (by decide)).2.2.1⟩

/- Occurrence-scanning lemmas for the `<XML>` / `</XML>` literals. -/

lemma findOccs_cons_nomatch {pat : List Char} {c : Char} {cs : List Char}
    (i : Nat) (h : dropLit pat (c :: cs) = none) :
    findOccs pat (c :: cs) i = findOccs pat cs (i + 1) := by
  simp [findOccs, h]

lemma findOccs_cons_match {pat : List Char} {c : Char} {cs : List Char}
    (i : Nat) (h : (dropLit pat (c :: cs)).isSome) :
    findOccs pat (c :: cs) i = i :: findOccs pat cs (i + 1) := by
  simp [findOccs, h]

lemma findOccs_append_no_head {pat : List Char} {c0 : Char} {ls : List Char}
    (hpat : pat = c0 :: ls) {A : List Char} (hA : ∀ c ∈ A, c ≠ c0)
    (r : List Char) (i : Nat) :
    findOccs pat (A ++ r) i = findOccs pat r (i + A.length) := by
  induction A generalizing i with
  | nil => simp
  | cons a as ih =>
    have hd : dropLit pat (a :: (as ++ r)) = none := by
      rw [hpat]
      simp [dropLit, hA a (by simp)]
    rw [show (a :: as) ++ r = a :: (as ++ r) from rfl,
        findOccs_cons_nomatch i hd,
        ih (fun c hc => hA c (by simp [hc])) (i + 1)]
    congr 1
    simp only [List.length_cons]
    omega

lemma findOccs_sTag_here (r : List Char) (i : Nat) :
    findOccs xmlStartTag (xmlStartTag ++ r) i =
      i :: findOccs xmlStartTag r (i + 5) := by
  rw [show xmlStartTag ++ r = '<' :: ("XML>".data ++ r) from rfl,
      findOccs_cons_match i
        (by rw [show '<' :: ("XML>".data ++ r) = xmlStartTag ++ r from rfl,
                dropLit_append]
            rfl),
      findOccs_append_no_head (show xmlStartTag = '<' :: "XML>".data from rfl)
        (by decide) r (i + 1)]
  rw [show ("XML>".data).length = 4 from rfl, show i + 1 + 4 = i + 5 from by omega]

lemma findOccs_sTag_at_eTag (r : List Char) (i : Nat) :
    findOccs xmlStartTag (xmlEndTag ++ r) i = findOccs xmlStartTag r (i + 6) := by
  rw [show xmlEndTag ++ r = '<' :: ("/XML>".data ++ r) from rfl,
      findOccs_cons_nomatch i (by simp [dropLit]),
      findOccs_append_no_head (show xmlStartTag = '<' :: "XML>".data from rfl)
        (by decide) r (i + 1)]
  rw [show ("/XML>".data).length = 5 from rfl, show i + 1 + 5 = i + 6 from by omega]

lemma findOccs_eTag_here (r : List Char) (i : Nat) :
    findOccs xmlEndTag (xmlEndTag ++ r) i =
      i :: findOccs xmlEndTag r (i + 6) := by
  rw [show xmlEndTag ++ r = '<' :: ("/XML>".data ++ r) from rfl,
      findOccs_cons_match i
        (by rw [show '<' :: ("/XML>".data ++ r) = xmlEndTag ++ r from rfl,
                dropLit_append]
            rfl),
      findOccs_append_no_head (show xmlEndTag = '<' :: "/XML>".data from rfl)
        (by decide) r (i + 1)]
  rw [show ("/XML>".data).length = 5 from rfl, show i + 1 + 5 = i + 6 from by omega]

lemma findOccs_eTag_at_sTag (r : List Char) (i : Nat) :
    findOccs xmlEndTag (xmlStartTag ++ r) i = findOccs xmlEndTag r (i + 5) := by
  rw [show xmlStartTag ++ r = '<' :: ("XML>".data ++ r) from rfl,
      findOccs_cons_nomatch i (by simp [dropLit]),
      findOccs_append_no_head (show xmlEndTag = '<' :: "/XML>".data from rfl)
        (by decide) r (i + 1)]
  rw [show ("XML>".data).length = 4 from rfl, show i + 1 + 4 = i + 5 from by omega]

lemma dropLit_prolog_none {cs : List Char} (h : ∀ c ∈ cs, c ≠ '?') :
    dropLit prologLit cs = none := by
  cases cs with
  | nil => rfl
  | cons c rest =>
    show dropLit ('<' :: '?' :: "xml".data) (c :: rest) = none
    by_cases hc : c = '<'
    · subst hc
      cases rest with
      | nil => simp [dropLit]
      | cons d r2 =>
        have hd : d ≠ '?' := h d (by simp)
        simp [dropLit, hd]
    · simp [dropLit, hc]

lemma stripPrologFuel_id (n : Nat) {cs : List Char}
    (h : ∀ c ∈ cs, c ≠ '?') : stripPrologFuel n cs = cs := by
  induction n generalizing cs with
  | zero => rfl
  | succ n ih =>
    cases cs with
    | nil => rfl
    | cons c rest =>
      have hrest : ∀ d ∈ rest, d ≠ '?' := fun d hd => h d (by simp [hd])
      by_cases hc : c = '\n'
      · simp only [stripPrologFuel, hc, if_true,
          dropLit_prolog_none hrest, ih hrest]
      · simp only [stripPrologFuel, hc, if_false, ih hrest]

lemma stripPrologAux_id {cs : List Char} (h : ∀ c ∈ cs, c ≠ '?') :
    stripPrologAux cs = cs := stripPrologFuel_id _ h

/-- A document with exactly one `<XML>...</XML>` region. -/
def mkDoc1 (pre b post : String) : String :=
  pre ++ "<XML>" ++ b ++ "</XML>" ++ post

/-- A document with exactly two `<XML>...</XML>` regions. -/
def mkDoc2 (pre b1 mid b2 post : String) : String :=
  pre ++ "<XML>" ++ b1 ++ "</XML>" ++ mid ++ "<XML>" ++ b2 ++ "</XML>" ++ post

lemma mkDoc1_data (pre b post : String) :
    (mkDoc1 pre b post).data =
      pre.data ++ (xmlStartTag ++ (b.data ++ (xmlEndTag ++ post.data))) := by
  simp [mkDoc1, String.data_append, xmlStartTag, xmlEndTag, List.append_assoc]

lemma mkDoc2_data (pre b1 mid b2 post : String) :
    (mkDoc2 pre b1 mid b2 post).data =
      pre.data ++ (xmlStartTag ++ (b1.data ++ (xmlEndTag ++ (mid.data ++
        (xmlStartTag ++ (b2.data ++ (xmlEndTag ++ post.data))))))) := by
  simp [mkDoc2, String.data_append, xmlStartTag, xmlEndTag, List.append_assoc]

lemma sTag_head : xmlStartTag = '<' :: "XML>".data := rfl

lemma eTag_head : xmlEndTag = '<' :: "/XML>".data := rfl

lemma findOccs_no_head {pat : List Char} {c0 : Char} {ls : List Char}
    (hpat : pat = c0 :: ls) {A : List Char} (hA : ∀ c ∈ A, c ≠ c0) (i : Nat) :
    findOccs pat A i = [] := by
  induction A generalizing i with
  | nil => rfl
  | cons a as ih =>
    have hd : dropLit pat (a :: as) = none := by
      rw [hpat]
      simp [dropLit, hA a (by simp)]
    rw [findOccs_cons_nomatch i hd]
    exact ih (fun c hc => hA c (by simp [hc])) (i + 1)

lemma occs2_sTag {pre b1 mid b2 post : String}
    (hpre : ∀ c ∈ pre.data, c ≠ '<') (hb1 : ∀ c ∈ b1.data, c ≠ '<')
    (hmid : ∀ c ∈ mid.data, c ≠ '<') (hb2 : ∀ c ∈ b2.data, c ≠ '<')
    (hpost : ∀ c ∈ post.data, c ≠ '<') :
    findOccs xmlStartTag (mkDoc2 pre b1 mid b2 post).data 0 =
      [pre.data.length,
       pre.data.length + 5 + b1.data.length + 6 + mid.data.length] := by
  rw [mkDoc2_data,
      findOccs_append_no_head sTag_head hpre _ 0,
      findOccs_sTag_here,
      findOccs_append_no_head sTag_head hb1,
      findOccs_sTag_at_eTag,
      findOccs_append_no_head sTag_head hmid,
      findOccs_sTag_here,
      findOccs_append_no_head sTag_head hb2,
      findOccs_sTag_at_eTag,
      findOccs_no_head sTag_head hpost]
  simp only [Nat.zero_add]

lemma occs2_eTag {pre b1 mid b2 post : String}
    (hpre : ∀ c ∈ pre.data, c ≠ '<') (hb1 : ∀ c ∈ b1.data, c ≠ '<')
    (hmid : ∀ c ∈ mid.data, c ≠ '<') (hb2 : ∀ c ∈ b2.data, c ≠ '<')
    (hpost : ∀ c ∈ post.data, c ≠ '<') :
    findOccs xmlEndTag (mkDoc2 pre b1 mid b2 post).data 0 =
      [pre.data.length + 5 + b1.data.length,
       pre.data.length + 5 + b1.data.length + 6 + mid.data.length + 5
         + b2.data.length] := by
  rw [mkDoc2_data,
      findOccs_append_no_head eTag_head hpre _ 0,
      findOccs_eTag_at_sTag,
      findOccs_append_no_head eTag_head hb1,
      findOccs_eTag_here,
      findOccs_append_no_head eTag_head hmid,
      findOccs_eTag_at_sTag,
      findOccs_append_no_head eTag_head hb2,
      findOccs_eTag_here,
      findOccs_no_head eTag_head hpost]
  simp only [Nat.zero_add]

lemma occs1_sTag {pre b post : String}
    (hpre : ∀ c ∈ pre.data, c ≠ '<') (hb : ∀ c ∈ b.data, c ≠ '<')
    (hpost : ∀ c ∈ post.data, c ≠ '<') :
    findOccs xmlStartTag (mkDoc1 pre b post).data 0 = [pre.data.length] := by
  rw [mkDoc1_data,
      findOccs_append_no_head sTag_head hpre _ 0,
      findOccs_sTag_here,
      findOccs_append_no_head sTag_head hb,
      findOccs_sTag_at_eTag,
      findOccs_no_head sTag_head hpost]
  simp only [Nat.zero_add]

lemma occs1_eTag {pre b post : String}
    (hpre : ∀ c ∈ pre.data, c ≠ '<') (hb : ∀ c ∈ b.data, c ≠ '<')
    (hpost : ∀ c ∈ post.data, c ≠ '<') :
    findOccs xmlEndTag (mkDoc1 pre b post).data 0 =
      [pre.data.length + 5 + b.data.length] := by
  rw [mkDoc1_data,
      findOccs_append_no_head eTag_head hpre _ 0,
      findOccs_eTag_at_sTag,
      findOccs_append_no_head eTag_head hb,
      findOccs_eTag_here,
      findOccs_no_head eTag_head hpost]
  simp only [Nat.zero_add]

lemma pySlice_doc2 {pre b1 mid b2 post : String} :
    pySlice (mkDoc2 pre b1 mid b2 post).data
      (pre.data.length + 5 + b1.data.length + 6 + mid.data.length)
      (pre.data.length + 5 + b1.data.length + 6 + mid.data.length + 5
        + b2.data.length + 6) =
      xmlStartTag ++ b2.data ++ xmlEndTag := by
  unfold pySlice
  have hD : (mkDoc2 pre b1 mid b2 post).data =
      (pre.data ++ xmlStartTag ++ b1.data ++ xmlEndTag ++ mid.data) ++
        ((xmlStartTag ++ b2.data ++ xmlEndTag) ++ post.data) := by
    simp [mkDoc2, String.data_append, xmlStartTag, xmlEndTag, List.append_assoc]
  have hlen1 : (pre.data ++ xmlStartTag ++ b1.data ++ xmlEndTag ++ mid.data).length
      = pre.data.length + 5 + b1.data.length + 6 + mid.data.length := by
    simp only [List.length_append]
    have h5 : xmlStartTag.length = 5 := rfl
    have h6 : xmlEndTag.length = 6 := rfl
    omega
  have hlen2 : (xmlStartTag ++ b2.data ++ xmlEndTag).length
      = 5 + b2.data.length + 6 := by
    simp only [List.length_append]
    have h5 : xmlStartTag.length = 5 := rfl
    have h6 : xmlEndTag.length = 6 := rfl
    omega
  rw [hD, ← hlen1, List.drop_left]
  have hsub : (pre.data ++ xmlStartTag ++ b1.data ++ xmlEndTag ++ mid.data).length
      + 5 + b2.data.length + 6
      - (pre.data ++ xmlStartTag ++ b1.data ++ xmlEndTag ++ mid.data).length
      = 5 + b2.data.length + 6 := by omega
  rw [hsub, ← hlen2, List.take_left]

lemma pySlice_doc1 {pre b post : String} :
    pySlice (mkDoc1 pre b post).data
      pre.data.length
      (pre.data.length + 5 + b.data.length + 6) =
      xmlStartTag ++ b.data ++ xmlEndTag := by
  unfold pySlice
  have hD : (mkDoc1 pre b post).data =
      pre.data ++ ((xmlStartTag ++ b.data ++ xmlEndTag) ++ post.data) := by
    simp [mkDoc1, String.data_append, xmlStartTag, xmlEndTag, List.append_assoc]
  have hlen2 : (xmlStartTag ++ b.data ++ xmlEndTag).length
      = 5 + b.data.length + 6 := by
    simp only [List.length_append]
    have h5 : xmlStartTag.length = 5 := rfl
    have h6 : xmlEndTag.length = 6 := rfl
    omega
  rw [hD, List.drop_left]
  have hsub : pre.data.length + 5 + b.data.length + 6 - pre.data.length
      = 5 + b.data.length + 6 := by omega
  rw [hsub, ← hlen2, List.take_left]

lemma frag_no_q {b : String} (hb : ∀ c ∈ b.data, c ≠ '?') :
    ∀ c ∈ xmlStartTag ++ b.data ++ xmlEndTag, c ≠ '?' := by
  have hS : ∀ c ∈ xmlStartTag, c ≠ '?' := by decide
  have hE : ∀ c ∈ xmlEndTag, c ≠ '?' := by decide
  intro c hc
  rcases List.mem_append.mp hc with h | h
  · rcases List.mem_append.mp h with h2 | h2
    · exact hS c h2
    · exact hb c h2
  · exact hE c h

lemma extract_m1_doc2 {pre b1 mid b2 post : String}
    (hpre : ∀ c ∈ pre.data, c ≠ '<') (hb1 : ∀ c ∈ b1.data, c ≠ '<')
    (hmid : ∀ c ∈ mid.data, c ≠ '<') (hb2 : ∀ c ∈ b2.data, c ≠ '<')
    (hpost : ∀ c ∈ post.data, c ≠ '<') (hb2q : ∀ c ∈ b2.data, c ≠ '?') :
    extract_xml_m1 (mkDoc2 pre b1 mid b2 post).data =
      some (xmlStartTag ++ b2.data ++ xmlEndTag) := by
  unfold extract_xml_m1 xmlIndices
  rw [occs2_sTag hpre hb1 hmid hb2 hpost, occs2_eTag hpre hb1 hmid hb2 hpost]
  simp only [List.zip_cons_cons, List.zip_nil_right]
  rw [show xmlEndTag.length = 6 from rfl]
  rw [pySlice_doc2, stripPrologAux_id (frag_no_q hb2q)]

lemma extract_m1_doc1 {pre b post : String}
    (hpre : ∀ c ∈ pre.data, c ≠ '<') (hb : ∀ c ∈ b.data, c ≠ '<')
    (hpost : ∀ c ∈ post.data, c ≠ '<') (hbq : ∀ c ∈ b.data, c ≠ '?') :
    extract_xml_m1 (mkDoc1 pre b post).data =
      some (xmlStartTag ++ b.data ++ xmlEndTag) := by
  unfold extract_xml_m1 xmlIndices
  rw [occs1_sTag hpre hb hpost, occs1_eTag hpre hb hpost]
  simp only [List.zip_cons_cons, List.zip_nil_right]
  rw [show xmlEndTag.length = 6 from rfl]
  rw [pySlice_doc1, stripPrologAux_id (frag_no_q hbq)]

lemma form13f_frag_eq_m1 {cs : List Char} (h : xmlIndices cs ≠ []) :
    form13f_extract_xml_frag cs = extract_xml_m1 cs := by
  unfold form13f_extract_xml_frag extract_xml_m1
  cases hI : xmlIndices cs with
  | nil => exact absurd hI h
  | cons p ps =>
    obtain ⟨s, e⟩ := p
    rfl

/-- C3 (amended): in both `SECFilingParser.extract_xml` and
`Form13FParser.extract_xml`, a document with two `<XML>...</XML>`
regions yields the SECOND region as the holdings fragment, a document
with exactly one region yields that region (inner XML prolog lines
stripped — here the bodies carry no prolog, so the fragment is
returned verbatim); on a document with zero `<XML>` regions the core
parser yields no fragment, while the 13F parser falls back to
XML-declaration sniffing (Method 2) and `informationTable` search
(Method 3) and yields no fragment only when both fallbacks also fail. -/
theorem c3_amended (pre b1 mid b2 post : String)
    (hpre : ∀ c ∈ pre.data, c ≠ '<') (hb1 : ∀ c ∈ b1.data, c ≠ '<')
    (hmid : ∀ c ∈ mid.data, c ≠ '<') (hb2 : ∀ c ∈ b2.data, c ≠ '<')
    (hpost : ∀ c ∈ post.data, c ≠ '<') (hb2q : ∀ c ∈ b2.data, c ≠ '?') :
    (core_extract_xml (mkDoc2 pre b1 mid b2 post)).1 =
      some ("<XML>" ++ b2 ++ "</XML>") ∧
    (form13f_extract_xml (mkDoc2 pre b1 mid b2 post)).1 =
      some ("<XML>" ++ b2 ++ "</XML>") ∧
    (core_extract_xml (mkDoc1 pre b2 post)).1 =
      some ("<XML>" ++ b2 ++ "</XML>") ∧
    (form13f_extract_xml (mkDoc1 pre b2 post)).1 =
      some ("<XML>" ++ b2 ++ "</XML>") ∧
    (∀ content : String, findOccs xmlStartTag content.data 0 = [] →
      (core_extract_xml content).1 = none) ∧
    (∀ content : String, findOccs xmlStartTag content.data 0 = [] →
      form13f_method2 content.data = .fallthrough →
      form13f_method3 content.data = none →
      (form13f_extract_xml content).1 = none) := by
  have hdocIdx2 : xmlIndices (mkDoc2 pre b1 mid b2 post).data ≠ [] := by
    unfold xmlIndices
    rw [occs2_sTag hpre hb1 hmid hb2 hpost, occs2_eTag hpre hb1 hmid hb2 hpost]
    simp
  have hocIdx1 : xmlIndices (mkDoc1 pre b2 post).data ≠ [] := by
    unfold xmlIndices
    rw [occs1_sTag hpre hb2 hpost, occs1_eTag hpre hb2 hpost]
    simp
  refine ⟨?_, ?_, ?_, ?_, ?_, ?_⟩
  · show (extract_xml_m1 (mkDoc2 pre b1 mid b2 post).data).map String.mk = _
    rw [extract_m1_doc2 hpre hb1 hmid hb2 hpost hb2q]
    rfl
  · show (form13f_extract_xml_frag (mkDoc2 pre b1 mid b2 post).data).map String.mk = _
    rw [form13f_frag_eq_m1 hdocIdx2,
        extract_m1_doc2 hpre hb1 hmid hb2 hpost hb2q]
    rfl
  · show (extract_xml_m1 (mkDoc1 pre b2 post).data).map String.mk = _
    rw [extract_m1_doc1 hpre hb2 hpost hb2q]
    rfl
  · show (form13f_extract_xml_frag (mkDoc1 pre b2 post).data).map String.mk = _
    rw [form13f_frag_eq_m1 hocIdx1,
        extract_m1_doc1 hpre hb2 hpost hb2q]
    rfl
  · intro content h
    show (extract_xml_m1 content.data).map String.mk = none
    unfold extract_xml_m1 xmlIndices
    rw [h]
    rfl
  · intro content h h2 h3
    show (form13f_extract_xml_frag content.data).map String.mk = none
    have hIdx : xmlIndices content.data = [] := by
      unfold xmlIndices
      rw [h]
      rfl
    unfold form13f_extract_xml_frag
    rw [hIdx, h2, h3]
    rfl

def c3FallbackDoc : String :=
  "HEAD\n<?xml version=\"1.0\"?>\n<edgarSubmission>stuff</edgarSubmission>\nTAIL"

/-- C3 counterexample: this document contains ZERO `<XML>...</XML>`
regions, yet `Form13FParser.extract_xml` does not yield an empty
result: its Method-2 fallback sniffs the XML declaration and returns a
fragment, contradicting the claim that zero regions always yield no
holdings fragment. -/
theorem c3_counterexample :
    findOccs xmlStartTag c3FallbackDoc.data 0 = [] ∧
    (form13f_extract_xml c3FallbackDoc).1 =
      some "<?xml version=\"1.0\"?>\n<edgarSubmission>stuff</edgarSubmission>" :=
  ⟨by decide, by decide⟩

theorem c3_witness :
    (core_extract_xml
        (mkDoc2 "HEAD\n" "\nBODY1\n" "\nMID\n" "\nHOLDINGS\n" "TAIL")).1 =
      some "<XML>\nHOLDINGS\n</XML>" ∧
    (form13f_extract_xml
        (mkDoc2 "HEAD\n" "\nBODY1\n" "\nMID\n" "\nHOLDINGS\n" "TAIL")).1 =
      some "<XML>\nHOLDINGS\n</XML>" ∧
    (core_extract_xml (mkDoc1 "HEAD\n" "\nHOLDINGS\n" "TAIL")).1 =
      some "<XML>\nHOLDINGS\n</XML>" ∧
    (core_extract_xml "plain text, no markup at all\n").1 = none :=
  ⟨(c3_amended "HEAD\n" "\nBODY1\n" "\nMID\n" "\nHOLDINGS\n" "TAIL"
      (by decide) (by decide) (by decide) (by decide) (by decide) (by decide)).1,
   (c3_amended "HEAD\n" "\nBODY1\n" "\nMID\n" "\nHOLDINGS\n" "TAIL"
      (by decide) (by decide) (by decide) (by decide) (by decide) (by decide)).2.1,
   (c3_amended "HEAD\n" "\nHOLDINGS\n" "x" "\nHOLDINGS\n" "TAIL"
      (by decide) (by decide) (by decide) (by decide) (by decide) (by decide)).2.2.1,
   (c3_amended "x" "x" "x" "x" "x"
      (by decide) (by decide) (by decide) (by decide) (by decide)
      (by decide)).2.2.2.2.1 "plain text, no markup at all\n" (by decide)⟩
